import Mathlib

/-!
Verification of the elysia-api gateway backend (Go sources under
`backend/` plus its `config`, `relay` and `server` packages) against its
natural-language specification.

Shallow embedding notes:
* Go `interface{}` values decoded from JSON are modelled by the `Json`
  inductive below (`map[string]interface{}` becomes `Json.obj` over an
  association list; Go's decoder produces unique keys, and lookups take the
  first match).
* JSON numbers (Go `float64`) are modelled as `Int`: no behaviour verified
  here depends on a fractional value, only on presence and sign tests.
* Go panics (out-of-range indexing) are modelled by `Option`: `none` is a
  panic.
* Go `map[string]int` with its zero-value default is modelled as a total
  function `String → Nat` (every key starts at 0).
-/

set_option maxRecDepth 4000

namespace ElysiaApi

/-- JSON value, mirroring Go `encoding/json` decoding into `interface{}`. -/
inductive Json where
  | null : Json
  | bool (b : Bool) : Json
  | num (n : Int) : Json
  | str (s : String) : Json
  | arr (items : List Json) : Json
  | obj (fields : List (String × Json)) : Json

/-- First-match field lookup in a decoded JSON object (Go map indexing). -/
def lookupField : List (String × Json) → String → Option Json
  | [], _ => none
  | (k, v) :: rest, key => if k = key then some v else lookupField rest key

/-- Go `reqString`: value for `key` if it is a string, otherwise `""`. -/
def reqString (m : List (String × Json)) (key : String) : String :=
  match lookupField m key with
  | some (Json.str s) => s
  | _ => ""

/-- Go `reqBool`: value for `key` if it is a bool, otherwise `false`. -/
def reqBool (m : List (String × Json)) (key : String) : Bool :=
  match lookupField m key with
  | some (Json.bool b) => b
  | _ => false

/-- Format tags produced by `DetectInputFormat` (relay/converter.go). -/
inductive FormatType where
  | openai | deepseek | gemini | claude | unknown
deriving DecidableEq, Repr

/-- `DetectInputFormat` (relay/converter.go): a non-object body fails to
unmarshal into `map[string]interface{}` and yields `unknown`; otherwise the
presence of a top-level `contents` key yields Gemini, else the joint
presence of `system` and `max_tokens` yields Claude, else OpenAI. -/
def DetectInputFormat (body : Json) : FormatType :=
  match body with
  | Json.obj req =>
      if (lookupField req "contents").isSome then FormatType.gemini
      else if (lookupField req "system").isSome ∧ (lookupField req "max_tokens").isSome then
        FormatType.claude
      else FormatType.openai
  | _ => FormatType.unknown

/-! ### Go `strings` helpers -/

/-- Go `strings.Contains(s, sub)` on rune lists: some suffix of `l` has
`sub` as a prefix (the empty string is contained in everything). -/
def containsChars (sub : List Char) : List Char → Bool
  | [] => sub.isEmpty
  | c :: rest => sub.isPrefixOf (c :: rest) || containsChars sub rest

/-- Go `strings.Contains` on strings. -/
def goContains (s sub : String) : Bool :=
  containsChars sub.data s.data

theorem containsChars_of_isPrefixOf {sub l : List Char} (h : sub.isPrefixOf l = true) :
    containsChars sub l = true := by
  cases l with
  | nil =>
      have : sub = [] := by
        cases sub with
        | nil => rfl
        | cons c cs => simp [List.isPrefixOf] at h
      simp [containsChars, this]
  | cons c rest => simp [containsChars, h]

/-- If `sub` occurs in `t`, it occurs in `s ++ t`. -/
theorem containsChars_append_right {sub t : List Char} (s : List Char)
    (h : containsChars sub t = true) : containsChars sub (s ++ t) = true := by
  induction s with
  | nil => simpa using h
  | cons c cs ih => simp [containsChars]; right; simpa using ih

/-! ### Configuration data model (config package, `part_000`)

`ModelRef` and `ModelGroupConfig` carry further configuration-only fields
(`maxRetries`, `retryInterval`, `maxConcurrency`, `dailyLimit`, capability
flags) that no operation embedded here reads; they are omitted. -/

structure ModelRef where
  id : String
  name : String
  baseURL : String
  apiKey : String
  platform : String
deriving DecidableEq, Repr

structure ModelGroupConfig where
  id : String
  name : String
  enabled : Bool
  models : List ModelRef
  strategy : String
deriving DecidableEq, Repr

/-- `Config.GetGroupByName`: first group whose `Name` matches. -/
def GetGroupByName (groups : List ModelGroupConfig) (name : String) :
    Option ModelGroupConfig :=
  groups.find? (fun g => g.name = name)

/-! ### Group validation and error mapping (server.go) -/

def requiredMsg : String := "model name is required"

def notFoundMsg (name : String) : String :=
  "model group '" ++ name ++ "' not found"

def disabledMsg (name : String) : String :=
  "model group '" ++ name ++ "' is disabled"

def noModelsMsg (name : String) : String :=
  "no available models in group '" ++ name ++ "'"

/-- `validateModelGroup` (server.go:243-259): empty name, unknown group,
disabled group, and empty member list are rejected in that order. -/
def validateModelGroup (groups : List ModelGroupConfig) (groupName : String) :
    Except String ModelGroupConfig :=
  if groupName = "" then Except.error requiredMsg
  else
    match GetGroupByName groups groupName with
    | none => Except.error (notFoundMsg groupName)
    | some g =>
        if ¬g.enabled then Except.error (disabledMsg groupName)
        else if g.models.length = 0 then Except.error (noModelsMsg groupName)
        else Except.ok g

/-- `chatCompletions` (server.go:101-112): the HTTP status attached to a
`validateModelGroup` failure is derived by substring sniffing on the error
message — `"not found"` gives 404, else `"disabled"` gives 403, else 500. -/
def errorStatus (msg : String) : Nat :=
  if goContains msg "not found" then 404
  else if goContains msg "disabled" then 403
  else 500

/-- Outcome of the group-resolution step of `chatCompletions`: either an
early JSON error response (no endpoint selection, no upstream call), or
the validated group handed to `selectModel`. -/
inductive ChatOutcome where
  | errorResp (status : Nat) (body : Json) : ChatOutcome
  | dispatch (g : ModelGroupConfig) : ChatOutcome

def errBody (msg : String) : Json :=
  Json.obj [("error", Json.str msg)]

/-- The `validateModelGroup` call site in `chatCompletions`: an error is
turned into `c.JSON(status, gin.H{"error": err.Error()})` and the handler
returns before `selectModel` runs. -/
def resolveGroup (groups : List ModelGroupConfig) (name : String) : ChatOutcome :=
  match validateModelGroup groups name with
  | Except.error msg => ChatOutcome.errorResp (errorStatus msg) (errBody msg)
  | Except.ok g => ChatOutcome.dispatch g

def ChatOutcome.status : ChatOutcome → Option Nat
  | errorResp s _ => some s
  | dispatch _ => none

def ChatOutcome.isDispatch : ChatOutcome → Bool
  | errorResp _ _ => false
  | dispatch _ => true

/-! ### Model selection (server.go `selectModel`) -/

/-- The server's round-robin cursor map `roundRobinIndex : map[string]int`;
a Go map read of a missing key yields the zero value, so the state is a
total function defaulting to 0. -/
structure SelState where
  roundRobinIndex : String → Nat

def SelState.initial : SelState := ⟨fun _ => 0⟩

/-- `selectModel` (server.go:214-240). The `random` case calls
`rand.Intn(modelCount)`; its result is modelled by `r % modelCount` for an
arbitrary seed `r`, which ranges over exactly `[0, modelCount)`. List
indexing `models[idx]` is Go indexing: out of range is a panic, modelled
as `none`. -/
def selectModel (g : ModelGroupConfig) (s : SelState) (r : Nat) :
    Option ModelRef × SelState :=
  let models := g.models
  let modelCount := models.length
  if g.strategy = "round-robin" then
    let idx := s.roundRobinIndex g.id
    let s' : SelState :=
      ⟨fun k => if k = g.id then (idx + 1) % modelCount else s.roundRobinIndex k⟩
    (models[idx]?, s')
  else if g.strategy = "random" then
    (models[r % modelCount]?, s)
  else if g.strategy = "sequential" then
    (models[0]?, s)
  else
    (models[0]?, s)

/-- `k` consecutive `selectModel` calls for the same group with no
interleaved selections, collecting each returned endpoint. -/
def runSelect (g : ModelGroupConfig) : Nat → SelState → List (Option ModelRef) × SelState
  | 0, s => ([], s)
  | k + 1, s =>
      let (m, s') := selectModel g s 0
      let (rest, sFinal) := runSelect g k s'
      (m :: rest, sFinal)

/-! ### Unified request model (relay/converter.go)

Field-per-field image of Go's `UnifiedRequest`/`UnifiedMessage`; pointer
fields become `Option`, `interface{}` JSON fields become `Json` (with
`Option Json` where Go distinguishes a nil interface). `ExtraFields`,
`Seed`, `LogProbs`, `TopLogProbs` and `PromptCacheRetention` are never
written or read by the embedded operations and are omitted. -/

structure StreamOptions where
  includeUsage : Bool
deriving DecidableEq, Repr

structure FunctionDefinition where
  name : String
  description : String
  parameters : Option Json

structure Tool where
  type : String
  function : FunctionDefinition

structure ThinkingConfig where
  enabled : Bool
  effort : String
deriving DecidableEq, Repr

structure UnifiedMessage where
  role : String
  content : Json

structure UnifiedRequest where
  model : String := ""
  messages : List UnifiedMessage := []
  maxTokens : Int := 0
  maxCompletionTokens : Int := 0
  temperature : Option Int := none
  topP : Option Int := none
  topK : Int := 0
  n : Int := 0
  stream : Bool := false
  streamOptions : Option StreamOptions := none
  stop : Option Json := none
  presencePenalty : Option Int := none
  frequencyPenalty : Option Int := none
  reasoningEffort : String := ""
  thinkingConfig : Option ThinkingConfig := none
  tools : List Tool := []
  toolChoice : Option Json := none
  parallelToolCalls : Bool := false
  user : String := ""
  promptCacheKey : String := ""

/-- A Go `interface{}` field read from a decoded map: a missing key and an
explicit JSON `null` both give a nil interface. -/
def goField (m : List (String × Json)) (key : String) : Option Json :=
  match lookupField m key with
  | some Json.null => none
  | some v => some v
  | none => none

/-- Numeric field extraction `m[key].(float64)`. -/
def numField (m : List (String × Json)) (key : String) : Option Int :=
  match lookupField m key with
  | some (Json.num v) => some v
  | _ => none

/-! ### OpenAI importer (`OpenAIToUnified`, converter.go:165-263) -/

/-- One message of the OpenAI importer's loop (converter.go:177-186):
non-object entries are skipped, the role is the duck-typed string and the
content is stored verbatim (`nil` when absent). -/
def openAIMsgImport (m : Json) : Option UnifiedMessage :=
  match m with
  | Json.obj mm =>
      some ⟨reqString mm "role", (lookupField mm "content").getD Json.null⟩
  | _ => none

def openAIMessages (req : List (String × Json)) : List UnifiedMessage :=
  match lookupField req "messages" with
  | some (Json.arr msgs) => msgs.filterMap openAIMsgImport
  | _ => []

def openAITools (req : List (String × Json)) : List Tool :=
  match lookupField req "tools" with
  | some (Json.arr ts) =>
      ts.filterMap (fun t =>
        match t with
        | Json.obj tm =>
            match lookupField tm "type" with
            | some (Json.str ty) =>
                if ty = "function" then
                  match lookupField tm "function" with
                  | some (Json.obj fm) =>
                      some ⟨"function",
                        ⟨reqString fm "name", reqString fm "description",
                          match lookupField fm "parameters" with
                          | some (Json.obj p) => some (Json.obj p)
                          | _ => none⟩⟩
                  | _ => none
                else none
            | _ => none
        | _ => none)
  | _ => []

def openAIStreamOptions (req : List (String × Json)) : Option StreamOptions :=
  match lookupField req "stream_options" with
  | some (Json.obj so) =>
      match lookupField so "include_usage" with
      | some (Json.bool b) => some ⟨b⟩
      | _ => none
  | _ => none

/-- The unified request built by `OpenAIToUnified` from the decoded
object: duck-typed field extraction mirroring the source line by line. -/
def openAIImportRecord (req : List (String × Json)) : UnifiedRequest :=
  { model := reqString req "model"
    stream := reqBool req "stream"
    messages := openAIMessages req
    maxTokens := (numField req "max_tokens").getD 0
    maxCompletionTokens := (numField req "max_completion_tokens").getD 0
    temperature := numField req "temperature"
    topP := numField req "top_p"
    topK := (numField req "top_k").getD 0
    n := (numField req "n").getD 0
    presencePenalty := numField req "presence_penalty"
    frequencyPenalty := numField req "frequency_penalty"
    stop := goField req "stop"
    toolChoice := goField req "tool_choice"
    user := if (goField req "user").isSome then reqString req "user" else ""
    streamOptions := openAIStreamOptions req
    promptCacheKey :=
      if (goField req "prompt_cache_key").isSome then reqString req "prompt_cache_key"
      else ""
    reasoningEffort := reqString req "reasoning_effort"
    tools := openAITools req }

/-- `OpenAIToUnified`: a body that does not decode into a JSON object is a
parse error; otherwise the duck-typed field extraction above. -/
def OpenAIToUnified (body : Json) : Except String UnifiedRequest :=
  match body with
  | Json.obj req => Except.ok (openAIImportRecord req)
  | _ => Except.error "failed to parse OpenAI request"

/-! ### Gemini importer (`GeminiToUnified`, converter.go:289-376)

The input is the result of Go's typed struct decode of the body; fields
the importer never reads (`functionCall`, `functionResponse`) are
omitted. -/

structure GeminiExecutableCode where
  language : String
  code : String
deriving DecidableEq, Repr

structure GeminiPart where
  text : String := ""
  executableCode : Option GeminiExecutableCode := none
deriving DecidableEq, Repr

structure GeminiContent where
  role : String
  parts : List GeminiPart
deriving DecidableEq, Repr

structure GeminiGenerationConfig where
  temperature : Int := 0
  maxOutputTokens : Int := 0
  topP : Int := 0
deriving DecidableEq, Repr

structure GeminiThinkingConfigIn where
  includeThoughts : Bool := false
  thinkingEffort : String := ""
deriving DecidableEq, Repr

structure GeminiBody where
  model : String := ""
  contents : List GeminiContent := []
  generationConfig : GeminiGenerationConfig := {}
  thinkingConfig : Option GeminiThinkingConfigIn := none

/-- The per-part loop of `GeminiToUnified` (converter.go:343-355): a
nonempty text part appends to the text accumulator and RESETS the
collected part list (`contentParts = nil`); an executable-code part
appends a `{"type":"code","code":...}` element. -/
def geminiPartsLoop : List GeminiPart → List Json → String → List Json × String
  | [], cps, t => (cps, t)
  | p :: rest, cps, t =>
      let (cps, t) := if p.text ≠ "" then ([], t ++ p.text) else (cps, t)
      let cps :=
        match p.executableCode with
        | some ec => cps ++ [Json.obj [("type", Json.str "code"), ("code", Json.str ec.code)]]
        | none => cps
      geminiPartsLoop rest cps t

/-- Final content for one Gemini message (converter.go:357-367): mixed
parts when both code parts and text survived, bare part list when only
code parts, bare string otherwise. -/
def geminiContentValue (parts : List GeminiPart) : Json :=
  let (cps, t) := geminiPartsLoop parts [] ""
  if cps.isEmpty = false ∧ t ≠ "" then
    Json.arr (Json.obj [("type", Json.str "text"), ("text", Json.str t)] :: cps)
  else if cps.isEmpty = false then Json.arr cps
  else Json.str t

/-- Role mapping of the Gemini importer: `model` becomes `assistant`,
anything else passes through. -/
def geminiImportRole (role : String) : String :=
  if role = "user" then "user"
  else if role = "model" then "assistant"
  else role

def GeminiToUnified (b : GeminiBody) : UnifiedRequest :=
  { model := b.model
    maxTokens := b.generationConfig.maxOutputTokens
    temperature :=
      if b.generationConfig.temperature > 0 then some b.generationConfig.temperature else none
    topP := if b.generationConfig.topP > 0 then some b.generationConfig.topP else none
    thinkingConfig :=
      match b.thinkingConfig with
      | some tc => if tc.includeThoughts then some ⟨true, tc.thinkingEffort⟩ else none
      | none => none
    messages :=
      b.contents.map (fun c => ⟨geminiImportRole c.role, geminiContentValue c.parts⟩) }

/-! ### Claude importer (`ClaudeToUnified`, converter.go:379-466) -/

structure ClaudeTool where
  name : String := ""
  description : String := ""
  inputSchema : Option Json := none

structure ClaudeMessage where
  role : String
  content : Json

structure ClaudeBody where
  model : String := ""
  maxTokens : Int := 0
  messages : List ClaudeMessage := []
  system : String := ""
  temperature : Int := 0
  topP : Int := 0
  stream : Bool := false
  stop : Option Json := none
  thinkingEnabled : Option Bool := none
  thinkingBudget : Int := 0
  tools : List ClaudeTool := []

/-- Claude thinking effort from the budget thresholds
(converter.go:438-451). -/
def claudeEffortOfBudget (budget : Int) : String :=
  if budget > 0 then
    if budget ≤ 1000 then "low"
    else if budget ≥ 20000 then "high"
    else "medium"
  else "medium"

def ClaudeToUnified (b : ClaudeBody) : UnifiedRequest :=
  { model := b.model
    maxTokens := b.maxTokens
    stream := b.stream
    stop := b.stop
    temperature := if b.temperature > 0 then some b.temperature else none
    topP := if b.topP > 0 then some b.topP else none
    messages :=
      (if b.system ≠ "" then [(⟨"system", Json.str b.system⟩ : UnifiedMessage)] else []) ++
        b.messages.map (fun m => ⟨m.role, m.content⟩)
    thinkingConfig :=
      match b.thinkingEnabled with
      | some true => some ⟨true, claudeEffortOfBudget b.thinkingBudget⟩
      | _ => none
    tools := b.tools.map (fun t => ⟨"function", ⟨t.name, t.description, t.inputSchema⟩⟩) }

/-! ### Exporters (converter.go `UnifiedTo*`)

Go builds a `map[string]interface{}` and marshals it. `Json.obj` keeps the
source's insertion order instead of Go's alphabetical marshal order; the
theorems below only ever compare outputs of the same builder, where
list equality coincides with equality of the marshaled Go bytes. -/

/-- Fallback of Go's `fmt.Sprintf("%v", content)` for content that is
neither nil, string nor array. Approximate for numbers and composites; no
theorem below reaches this branch. -/
def goSprintfV : Json → String
  | Json.null => "<nil>"
  | Json.bool b => if b then "true" else "false"
  | Json.num n => toString n
  | Json.str s => s
  | Json.arr _ => "[...]"
  | Json.obj _ => "map[...]"

/-- The shared item loop of `extractTextFromContent` and
`normalizeContentForDeepSeek`: concatenate the `text` of every array item
that is an object with `type == "text"` and a string `text`. -/
def textOfItems : List Json → String
  | [] => ""
  | item :: rest =>
      (match item with
        | Json.obj im =>
            match lookupField im "type" with
            | some (Json.str ty) =>
                if ty = "text" then
                  match lookupField im "text" with
                  | some (Json.str tx) => tx
                  | _ => ""
                else ""
            | _ => ""
        | _ => "") ++ textOfItems rest

/-- `extractTextFromContent` (converter.go:711-740). -/
def extractTextFromContent (content : Json) : String :=
  match content with
  | Json.null => ""
  | Json.str s => s
  | Json.arr items => textOfItems items
  | c => goSprintfV c

/-- `normalizeContentForDeepSeek` (converter.go:743-772); the Go body is
the same duck-typed extraction as `extractTextFromContent`. -/
def normalizeContentForDeepSeek (content : Json) : String :=
  match content with
  | Json.null => ""
  | Json.str s => s
  | Json.arr items => textOfItems items
  | c => goSprintfV c

/-- Marshal of a `UnifiedMessage` (struct tags `role`, `content`). -/
def unifiedMessageToJson (m : UnifiedMessage) : Json :=
  Json.obj [("role", Json.str m.role), ("content", m.content)]

def toolToJson (t : Tool) : Json :=
  Json.obj
    [("type", Json.str t.type),
     ("function",
        Json.obj
          ([("name", Json.str t.function.name)] ++
            (if t.function.description ≠ "" then
              [("description", Json.str t.function.description)]
            else []) ++
            (match t.function.parameters with
              | some p => [("parameters", p)]
              | none => [])))]

def optNumEntry (key : String) : Option Int → List (String × Json)
  | some v => [(key, Json.num v)]
  | none => []

def optJsonEntry (key : String) : Option Json → List (String × Json)
  | some v => [(key, v)]
  | none => []

/-- `UnifiedToOpenAI` (converter.go:503-543). -/
def UnifiedToOpenAI (u : UnifiedRequest) : Json :=
  Json.obj
    ([("model", Json.str u.model),
      ("messages", Json.arr (u.messages.map unifiedMessageToJson))] ++
      (if u.maxTokens > 0 then [("max_tokens", Json.num u.maxTokens)] else []) ++
      optNumEntry "temperature" u.temperature ++
      optNumEntry "top_p" u.topP ++
      (if u.stream then [("stream", Json.bool true)] else []) ++
      optJsonEntry "stop" u.stop ++
      optNumEntry "presence_penalty" u.presencePenalty ++
      optNumEntry "frequency_penalty" u.frequencyPenalty ++
      (if u.tools.isEmpty = false then
        [("tools", Json.arr (u.tools.map toolToJson))]
      else []) ++
      optJsonEntry "tool_choice" u.toolChoice ++
      (match u.thinkingConfig with
        | some tc => if tc.enabled then [("reasoning_effort", Json.str tc.effort)] else []
        | none => []))

/-- A DeepSeek message: content forcibly flattened to a plain string
(converter.go:553-559). -/
def deepSeekMessageToJson (m : UnifiedMessage) : Json :=
  Json.obj [("role", Json.str m.role),
            ("content", Json.str (normalizeContentForDeepSeek m.content))]

/-- `UnifiedToDeepSeek` (converter.go:547-587): like OpenAI but with
flattened message content and without tools, tool choice and thinking. -/
def UnifiedToDeepSeek (u : UnifiedRequest) : Json :=
  Json.obj
    ([("model", Json.str u.model),
      ("messages", Json.arr (u.messages.map deepSeekMessageToJson))] ++
      (if u.maxTokens > 0 then [("max_tokens", Json.num u.maxTokens)] else []) ++
      optNumEntry "temperature" u.temperature ++
      optNumEntry "top_p" u.topP ++
      (if u.stream then [("stream", Json.bool true)] else []) ++
      optJsonEntry "stop" u.stop ++
      optNumEntry "presence_penalty" u.presencePenalty ++
      optNumEntry "frequency_penalty" u.frequencyPenalty)

/-- Claude thinking budget from the unified effort
(converter.go:613-623). -/
def claudeBudgetOfEffort (effort : String) : Int :=
  if effort = "low" then 1000
  else if effort = "high" then 20000
  else 10000

/-- `UnifiedToClaude` (converter.go:590-626). -/
def UnifiedToClaude (u : UnifiedRequest) : Json :=
  Json.obj
    ([("model", Json.str u.model),
      ("messages", Json.arr (u.messages.map unifiedMessageToJson))] ++
      (if u.maxTokens > 0 then [("max_tokens", Json.num u.maxTokens)] else []) ++
      optNumEntry "temperature" u.temperature ++
      optNumEntry "top_p" u.topP ++
      (if u.stream then [("stream", Json.bool true)] else []) ++
      optJsonEntry "stop" u.stop ++
      (match u.thinkingConfig with
        | some tc =>
            if tc.enabled then
              [("thinking_enabled", Json.bool true),
               ("thinking_budget", Json.num (claudeBudgetOfEffort tc.effort))]
            else []
        | none => []))

/-! ### Gemini exporter (`UnifiedToGemini`, converter.go:629-708)

Go builds a typed `GeminiRequest` value and marshals it; the typed value
and its marshal are embedded separately. -/

structure GeminiOutPart where
  text : String
deriving DecidableEq, Repr

structure GeminiOutContent where
  role : String
  parts : List GeminiOutPart
deriving DecidableEq, Repr

structure GeminiOutGenConfig where
  temperature : Int
  maxOutputTokens : Int
  topP : Int
  topK : Int
deriving DecidableEq, Repr

structure GeminiOutRequest where
  contents : List GeminiOutContent
  generationConfig : Option GeminiOutGenConfig
deriving DecidableEq, Repr

/-- Role mapping of the Gemini exporter: `assistant` becomes `model`. -/
def geminiExportRole (role : String) : String :=
  if role = "assistant" then "model" else role

/-- Text of one outbound Gemini part (converter.go:692-703): nil content
is empty, a string passes through, anything else goes through
`extractTextFromContent`. -/
def geminiMsgText (m : UnifiedMessage) : String :=
  match m.content with
  | Json.null => ""
  | Json.str s => s
  | c => extractTextFromContent c

def UnifiedToGemini (u : UnifiedRequest) : GeminiOutRequest :=
  { contents :=
      u.messages.map (fun m => ⟨geminiExportRole m.role, [⟨geminiMsgText m⟩]⟩)
    generationConfig :=
      if u.temperature.isSome ∨ u.maxTokens > 0 ∨ u.topP.isSome ∨ u.topK > 0 then
        some
          { temperature := u.temperature.getD 0
            maxOutputTokens := if u.maxTokens > 0 then u.maxTokens else 0
            topP := u.topP.getD 0
            topK := if u.topK > 0 then u.topK else 0 }
      else none }

def geminiOutPartToJson (p : GeminiOutPart) : Json :=
  Json.obj (if p.text ≠ "" then [("text", Json.str p.text)] else [])

def geminiOutContentToJson (c : GeminiOutContent) : Json :=
  Json.obj [("role", Json.str c.role),
            ("parts", Json.arr (c.parts.map geminiOutPartToJson))]

def geminiOutGenConfigToJson (gc : GeminiOutGenConfig) : Json :=
  Json.obj
    ((if gc.temperature ≠ 0 then [("temperature", Json.num gc.temperature)] else []) ++
      (if gc.maxOutputTokens ≠ 0 then [("maxOutputTokens", Json.num gc.maxOutputTokens)] else []) ++
      (if gc.topP ≠ 0 then [("topP", Json.num gc.topP)] else []) ++
      (if gc.topK ≠ 0 then [("topK", Json.num gc.topK)] else []))

/-- Marshal of the outbound `GeminiRequest` struct: a `contents` key, plus
`generationConfig` only when present; the struct has no `stream` field. -/
def geminiRequestToJson (r : GeminiOutRequest) : Json :=
  Json.obj
    ([("contents", Json.arr (r.contents.map geminiOutContentToJson))] ++
      (match r.generationConfig with
        | some gc => [("generationConfig", geminiOutGenConfigToJson gc)]
        | none => []))

/-! ### Platform dispatch and the relay adapter (`part_002`, server.go) -/

inductive Platform where
  | openai | deepseek | anthropic | gemini | azure | unknown
deriving DecidableEq, Repr

/-- `ConvertFromUnified` (converter.go:487-500). -/
def ConvertFromUnified (u : UnifiedRequest) : Platform → Json
  | Platform.deepseek => UnifiedToDeepSeek u
  | Platform.openai => UnifiedToOpenAI u
  | Platform.anthropic => UnifiedToClaude u
  | Platform.gemini => geminiRequestToJson (UnifiedToGemini u)
  | _ => UnifiedToOpenAI u

/-- `IsStreamRequest` (`part_002`:284-293): true exactly when the body is
an object whose `stream` field is the boolean `true`. -/
def IsStreamRequest (body : Json) : Bool :=
  match body with
  | Json.obj fs =>
      match lookupField fs "stream" with
      | some (Json.bool b) => b
      | _ => false
  | _ => false

inductive DispatchPath where
  | stream | buffered
deriving DecidableEq, Repr

/-- The dispatch branch of `chatCompletions` (server.go:136-146). -/
def dispatchOf (targetBody : Json) : DispatchPath :=
  if IsStreamRequest targetBody then DispatchPath.stream else DispatchPath.buffered

/-- `ForwardStreamResponse` (`part_002`:329-350) over the upstream
response split into scanner lines: each `data: `-prefixed line is
re-emitted with a blank-line frame; `data: [DONE]` is forwarded and ends
the loop; other lines are skipped. `line[6:]` is byte slicing, and the
sliced prefix `"data: "` is 6 one-byte runes, so it is rune slicing
here. The returned list is the sequence of `writer.Write` payloads. -/
def ForwardStreamResponse : List String → List String
  | [] => []
  | line :: rest =>
      if "data: ".data.isPrefixOf line.data then
        if String.mk (line.data.drop 6) = "[DONE]" then ["data: [DONE]\n\n"]
        else ("data: " ++ String.mk (line.data.drop 6) ++ "\n\n") ::
          ForwardStreamResponse rest
      else ForwardStreamResponse rest

/-- Prefix of the upstream lines up to and including the first
`data: [DONE]` marker (the whole list when the marker never occurs). -/
def sseCut : List String → List String
  | [] => []
  | l :: rest => if l = "data: [DONE]" then [l] else l :: sseCut rest

/-- Modelled from the spec: the streaming relay's observable output —
every `data: `-prefixed upstream line up to and including the first
`data: [DONE]`, each forwarded unmodified except for an appended
blank-line frame, and nothing after the marker. -/
def sseForwardSpec (lines : List String) : List String :=
  ((sseCut lines).filter (fun l => "data: ".data.isPrefixOf l.data)).map
    (fun l => l ++ "\n\n")

/-! ## Theorems -/

/-- C4: format detection classifies a well-formed JSON object by first
match: a top-level `contents` field yields Gemini; otherwise `system` and
`max_tokens` together yield Claude; otherwise OpenAI-compatible. -/
theorem C4_detect_format_order :
    (∀ fs : List (String × Json), (lookupField fs "contents").isSome = true →
        DetectInputFormat (Json.obj fs) = FormatType.gemini) ∧
    (∀ fs : List (String × Json), (lookupField fs "contents").isSome = false →
        (lookupField fs "system").isSome = true →
        (lookupField fs "max_tokens").isSome = true →
        DetectInputFormat (Json.obj fs) = FormatType.claude) ∧
    (∀ fs : List (String × Json), (lookupField fs "contents").isSome = false →
        ((lookupField fs "system").isSome = false ∨
          (lookupField fs "max_tokens").isSome = false) →
        DetectInputFormat (Json.obj fs) = FormatType.openai) := by
  refine ⟨fun fs h => ?_, fun fs h1 h2 h3 => ?_, fun fs h1 h2 => ?_⟩
  · simp [DetectInputFormat, h]
  · simp [DetectInputFormat, h1, h2, h3]
  · rcases h2 with h2 | h2 <;> simp [DetectInputFormat, h1, h2]

/-- C4 witness: the claim's two distinguished instances — a body with
`contents`, `system` and `max_tokens` is Gemini, and a body with `system`
but no `max_tokens` is OpenAI (plus a Claude instance). -/
theorem C4_witness :
    DetectInputFormat
        (Json.obj [("contents", Json.arr []), ("system", Json.str "s"),
          ("max_tokens", Json.num 5)]) = FormatType.gemini ∧
    DetectInputFormat (Json.obj [("system", Json.str "s"), ("messages", Json.arr [])]) =
        FormatType.openai ∧
    DetectInputFormat (Json.obj [("system", Json.str "s"), ("max_tokens", Json.num 5)]) =
        FormatType.claude :=
  ⟨C4_detect_format_order.1 _ (by decide),
    C4_detect_format_order.2.2 _ (by decide) (Or.inr (by decide)),
    C4_detect_format_order.2.1 _ (by decide) (by decide) (by decide)⟩

/-- C9: the Gemini exporter's body never carries a `stream` field, so the
stream check on the exported body is false and dispatch always takes the
buffered path, whatever the inbound streaming flag was. -/
theorem C9_gemini_always_buffered (u : UnifiedRequest) :
    IsStreamRequest (geminiRequestToJson (UnifiedToGemini u)) = false ∧
    dispatchOf (geminiRequestToJson (UnifiedToGemini u)) = DispatchPath.buffered := by
  have h : IsStreamRequest (geminiRequestToJson (UnifiedToGemini u)) = false := by
    unfold geminiRequestToJson IsStreamRequest
    cases (UnifiedToGemini u).generationConfig <;> simp [lookupField]
  exact ⟨h, by simp [dispatchOf, h]⟩

/-- Round-robin single step (server.go:219-224): with cursor value `idx`,
the selection returns `models[idx]` and stores `(idx + 1) % modelCount`
under the group's id, leaving other groups' cursors unchanged. -/
theorem selectModel_round_robin (g : ModelGroupConfig) (s : SelState) (r : Nat)
    (hstrat : g.strategy = "round-robin") :
    (selectModel g s r).1 = g.models[s.roundRobinIndex g.id]? ∧
    (selectModel g s r).2.roundRobinIndex g.id =
      (s.roundRobinIndex g.id + 1) % g.models.length := by
  simp [selectModel, hstrat]

/-- One unfolding step of `runSelect`. -/
theorem runSelect_succ (g : ModelGroupConfig) (k : Nat) (s : SelState) :
    runSelect g (k + 1) s =
      ((selectModel g s 0).1 :: (runSelect g k (selectModel g s 0).2).1,
        (runSelect g k (selectModel g s 0).2).2) := by
  rcases h : selectModel g s 0 with ⟨m, s'⟩
  rcases h2 : runSelect g k s' with ⟨rest, sF⟩
  simp [runSelect, h, h2]

/-- A round-robin run of `k` selections starting at cursor `c` with
`c + k ≤ N` returns the `k` members from index `c` on, in list order. -/
theorem runSelect_round_robin (g : ModelGroupConfig)
    (hstrat : g.strategy = "round-robin") :
    ∀ (k : Nat) (s : SelState), s.roundRobinIndex g.id + k ≤ g.models.length →
      (runSelect g k s).1 = ((g.models.drop (s.roundRobinIndex g.id)).take k).map some := by
  intro k
  induction k with
  | zero => intro s _; simp [runSelect]
  | succ k ih =>
      intro s hle
      have hcN : s.roundRobinIndex g.id < g.models.length := by omega
      have h1 := (selectModel_round_robin g s 0 hstrat).1
      have h2 := (selectModel_round_robin g s 0 hstrat).2
      rw [runSelect_succ, h1, List.drop_eq_getElem_cons hcN,
        List.getElem?_eq_getElem hcN, List.take_succ_cons, List.map_cons]
      rcases Nat.lt_or_ge (s.roundRobinIndex g.id + 1) g.models.length with hlt | hge
      · have hmod := Nat.mod_eq_of_lt hlt
        have htail := ih (selectModel g s 0).2 (by rw [h2, hmod]; omega)
        rw [htail, h2, hmod]
      · have hk0 : k = 0 := by omega
        subst hk0
        simp [runSelect]

/-- C5: for a round-robin group with N ≥ 1 members, each selection returns
the member at the pre-increment cursor and stores `(cursor + 1) mod N`;
a run of N consecutive selections starting from the group's first-ever
selection (cursor 0, the Go map zero value) returns the members at
indices 0, …, N-1 in list order. -/
theorem C5_round_robin_cycle :
    (∀ (g : ModelGroupConfig) (s : SelState) (r : Nat),
      g.strategy = "round-robin" →
      (selectModel g s r).1 = g.models[s.roundRobinIndex g.id]? ∧
      (selectModel g s r).2.roundRobinIndex g.id =
        (s.roundRobinIndex g.id + 1) % g.models.length) ∧
    (∀ (g : ModelGroupConfig) (s : SelState),
      g.strategy = "round-robin" → s.roundRobinIndex g.id = 0 →
      1 ≤ g.models.length →
      (runSelect g g.models.length s).1 = g.models.map some) := by
  refine ⟨fun g s r h => selectModel_round_robin g s r h, fun g s h h0 _ => ?_⟩
  have := runSelect_round_robin g h g.models.length s (by omega)
  simpa [h0] using this

/-- Sample members for concrete selector runs. -/
def refA : ModelRef := ⟨"m1", "model-a", "https://a", "k1", ""⟩

def refB : ModelRef := ⟨"m2", "model-b", "https://b", "k2", ""⟩

def refC : ModelRef := ⟨"m3", "model-c", "https://c", "k3", ""⟩

def rrGroup3 : ModelGroupConfig := ⟨"gid", "G", true, [refA, refB, refC], "round-robin"⟩

/-- C5 witness: a concrete three-member round-robin group visits A, B, C
in order over its first three selections, and the first selection stores
cursor 1. -/
theorem C5_witness :
    (runSelect rrGroup3 3 SelState.initial).1 = [some refA, some refB, some refC] ∧
    (selectModel rrGroup3 SelState.initial 0).2.roundRobinIndex "gid" = 1 := by
  constructor
  · have := C5_round_robin_cycle.2 rrGroup3 SelState.initial rfl rfl (by decide)
    simpa using this
  · have := (C5_round_robin_cycle.1 rrGroup3 SelState.initial 0 rfl).2
    simpa using this

/-- The same group after a config reload removed two of its three members;
the server-side cursor map is untouched by `Config.Reload`
(`part_000`:83-102 swaps `c.Groups` only). -/
def rrGroupShrunk : ModelGroupConfig := ⟨"gid", "G", true, [refA], "round-robin"⟩

/-- C10: refuted — the shrunk group still passes `validateModelGroup`
(enabled, one member), the cursor state 2 is reachable by two prior
selections on the three-member group, yet round-robin selection indexes
`models[2]` in a one-member list: a Go index-out-of-range panic
(modelled as `none`), not a member of the current list. -/
theorem C10_stale_cursor_out_of_bounds :
    validateModelGroup [rrGroupShrunk] "G" = Except.ok rrGroupShrunk ∧
    (runSelect rrGroup3 2 SelState.initial).2.roundRobinIndex "gid" = 2 ∧
    (selectModel rrGroupShrunk (runSelect rrGroup3 2 SelState.initial).2 0).1 = none :=
  ⟨rfl, rfl, rfl⟩

/-- The not-found message always contains `"not found"`, whatever the
group name. -/
theorem notFoundMsg_contains (name : String) :
    goContains (notFoundMsg name) "not found" = true := by
  unfold notFoundMsg goContains
  rw [String.data_append]
  exact containsChars_append_right _ (by decide)

/-- The disabled message always contains `"disabled"`, whatever the
group name. -/
theorem disabledMsg_contains (name : String) :
    goContains (disabledMsg name) "disabled" = true := by
  unfold disabledMsg goContains
  rw [String.data_append]
  exact containsChars_append_right _ (by decide)

/-- An enabled group with no members, for the C1 scenario. -/
def cfgEmptyGroup : List ModelGroupConfig := [⟨"id1", "g", true, [], "round-robin"⟩]

/-- C1 counterexample: with an enabled, member-less group named `g`, the
handler answers 500 (the message `no available models in group 'g'`
matches neither `"not found"` nor `"disabled"`), not 503; and an empty
model field answers 500 (`model name is required`), not 400. -/
theorem C1_counterexample :
    resolveGroup cfgEmptyGroup "g" =
        ChatOutcome.errorResp 500 (errBody (noModelsMsg "g")) ∧
    (resolveGroup cfgEmptyGroup "g").status ≠ some 503 ∧
    resolveGroup cfgEmptyGroup "" = ChatOutcome.errorResp 500 (errBody requiredMsg) ∧
    (resolveGroup cfgEmptyGroup "").status ≠ some 400 := by
  refine ⟨rfl, ?_, rfl, ?_⟩ <;> decide

/-- C1 (amended): a request naming an enabled group with zero member
endpoints is answered with HTTP 500 — not 503 — and a JSON error body
(provided the group's name does not smuggle `"not found"` or `"disabled"`
into the error message), and a request with an empty unified model field
is answered with HTTP 500 — not 400 — and a JSON error body. -/
theorem C1_empty_group_and_empty_model_500 :
    (∀ (groups : List ModelGroupConfig) (name : String) (g : ModelGroupConfig),
      GetGroupByName groups name = some g → name ≠ "" →
      g.enabled = true → g.models = [] →
      goContains (noModelsMsg name) "not found" = false →
      goContains (noModelsMsg name) "disabled" = false →
      resolveGroup groups name = ChatOutcome.errorResp 500 (errBody (noModelsMsg name))) ∧
    (∀ groups : List ModelGroupConfig,
      resolveGroup groups "" = ChatOutcome.errorResp 500 (errBody requiredMsg)) := by
  constructor
  · intro groups name g hfind hne hen hmodels h1 h2
    have hv : validateModelGroup groups name = Except.error (noModelsMsg name) := by
      simp [validateModelGroup, hne, hfind, hen, hmodels]
    have hs : errorStatus (noModelsMsg name) = 500 := by
      simp [errorStatus, h1, h2]
    simp [resolveGroup, hv, hs]
  · intro groups
    rfl

/-- C1 witness: the amended claim at the concrete empty group and at the
concrete empty model name. -/
theorem C1_witness :
    resolveGroup cfgEmptyGroup "g" =
        ChatOutcome.errorResp 500 (errBody (noModelsMsg "g")) ∧
    resolveGroup cfgEmptyGroup "" = ChatOutcome.errorResp 500 (errBody requiredMsg) :=
  ⟨C1_empty_group_and_empty_model_500.1 cfgEmptyGroup "g" ⟨"id1", "g", true, [], "round-robin"⟩
      rfl (by decide) rfl rfl (by decide) (by decide),
    C1_empty_group_and_empty_model_500.2 cfgEmptyGroup⟩

/-- A disabled group whose name happens to contain `"not found"`. -/
def cfgDisabledTricky : List ModelGroupConfig :=
  [⟨"id2", "a not found b", false, [refA], "round-robin"⟩]

/-- C7 counterexample: a configured but disabled group whose NAME contains
`"not found"` is answered 404, not 403 — the status is sniffed from the
error message `model group 'a not found b' is disabled`, and the
`"not found"` branch is checked first. -/
theorem C7_counterexample :
    (resolveGroup cfgDisabledTricky "a not found b").status = some 404 ∧
    (resolveGroup cfgDisabledTricky "a not found b").status ≠ some 403 := by
  refine ⟨rfl, ?_⟩; decide

/-- C7 (amended): a request naming an unconfigured group is answered 404
with a JSON error body; a request naming a configured, disabled group is
answered 403 with a JSON error body provided the group's name does not
smuggle `"not found"` into the disabled-message; in both cases the
handler returns before any endpoint selection or upstream call. -/
theorem C7_unknown_404_disabled_403 :
    (∀ (groups : List ModelGroupConfig) (name : String), name ≠ "" →
      GetGroupByName groups name = none →
      resolveGroup groups name = ChatOutcome.errorResp 404 (errBody (notFoundMsg name)) ∧
      (resolveGroup groups name).isDispatch = false) ∧
    (∀ (groups : List ModelGroupConfig) (name : String) (g : ModelGroupConfig),
      name ≠ "" → GetGroupByName groups name = some g → g.enabled = false →
      goContains (disabledMsg name) "not found" = false →
      resolveGroup groups name = ChatOutcome.errorResp 403 (errBody (disabledMsg name)) ∧
      (resolveGroup groups name).isDispatch = false) := by
  constructor
  · intro groups name hne hfind
    have hv : validateModelGroup groups name = Except.error (notFoundMsg name) := by
      simp [validateModelGroup, hne, hfind]
    have hs : errorStatus (notFoundMsg name) = 404 := by
      simp [errorStatus, notFoundMsg_contains]
    have he : resolveGroup groups name =
        ChatOutcome.errorResp 404 (errBody (notFoundMsg name)) := by
      simp [resolveGroup, hv, hs]
    exact ⟨he, by rw [he]; rfl⟩
  · intro groups name g hne hfind hdis hnf
    have hv : validateModelGroup groups name = Except.error (disabledMsg name) := by
      simp [validateModelGroup, hne, hfind, hdis]
    have hs : errorStatus (disabledMsg name) = 403 := by
      simp [errorStatus, hnf, disabledMsg_contains]
    have he : resolveGroup groups name =
        ChatOutcome.errorResp 403 (errBody (disabledMsg name)) := by
      simp [resolveGroup, hv, hs]
    exact ⟨he, by rw [he]; rfl⟩

/-- A plainly named disabled group, for the C7 witness. -/
def cfgDisabledPlain : List ModelGroupConfig :=
  [⟨"id3", "d", false, [refA], "round-robin"⟩]

/-- C7 witness: the amended claim at an unknown group name over an empty
registry and at a plainly named disabled group. -/
theorem C7_witness :
    resolveGroup [] "g" = ChatOutcome.errorResp 404 (errBody (notFoundMsg "g")) ∧
    resolveGroup cfgDisabledPlain "d" =
        ChatOutcome.errorResp 403 (errBody (disabledMsg "d")) :=
  ⟨(C7_unknown_404_disabled_403.1 [] "g" (by decide) rfl).1,
    (C7_unknown_404_disabled_403.2 cfgDisabledPlain "d"
      ⟨"id3", "d", false, [refA], "round-robin"⟩ (by decide) rfl rfl (by decide)).1⟩

/-- Reassembling a line from its `"data: "` prefix and its byte-6 tail. -/
theorem dataPrefix_append_drop {l : String}
    (h : "data: ".data.isPrefixOf l.data = true) :
    "data: " ++ String.mk (l.data.drop 6) = l := by
  obtain ⟨t, ht⟩ := (List.isPrefixOf_iff_prefix.mp h)
  apply String.ext
  rw [String.data_append, ← ht]
  show "data: ".data ++ List.drop 6 ("data: ".data ++ t) = "data: ".data ++ t
  rw [show (6 : Nat) = "data: ".data.length from rfl, List.drop_left]

/-- The relay package's `ForwardStreamResponse` helper implements the
spec's forwarding contract — each `data: `-prefixed upstream line up to
and including the first `data: [DONE]` marker, unmodified except for an
appended blank-line frame, nothing after the marker. No code in the
repository calls it: the live streaming path is `handleStreamRequest`
(see `handleStreamLines` below). -/
theorem C2_stream_forwarding (lines : List String) :
    ForwardStreamResponse lines = sseForwardSpec lines := by
  induction lines with
  | nil => rfl
  | cons l rest ih =>
      by_cases hpre : "data: ".data.isPrefixOf l.data = true
      · by_cases hD : String.mk (l.data.drop 6) = "[DONE]"
        · have hl : l = "data: [DONE]" := by
            rw [← dataPrefix_append_drop hpre, hD]
            decide
          subst hl
          rfl
        · have hlne : l ≠ "data: [DONE]" := by
            intro hl
            apply hD
            rw [hl]
            decide
          have hstep : ForwardStreamResponse (l :: rest) =
              ("data: " ++ String.mk (l.data.drop 6) ++ "\n\n") ::
                ForwardStreamResponse rest := by
            conv_lhs => rw [ForwardStreamResponse]
            rw [if_pos hpre, if_neg hD]
          have hcut : sseCut (l :: rest) = l :: sseCut rest := by
            conv_lhs => rw [sseCut]
            rw [if_neg hlne]
          rw [hstep, dataPrefix_append_drop hpre]
          unfold sseForwardSpec
          rw [hcut, List.filter_cons_of_pos
            (p := fun (s : String) => "data: ".data.isPrefixOf s.data) hpre, List.map_cons, ih]
          rfl
      · have hpre' : "data: ".data.isPrefixOf l.data = false := by
          revert hpre
          cases "data: ".data.isPrefixOf l.data <;> simp
        have hlne : l ≠ "data: [DONE]" := by
          intro hl
          rw [hl] at hpre'
          exact absurd hpre' (by decide)
        have hstep : ForwardStreamResponse (l :: rest) = ForwardStreamResponse rest := by
          conv_lhs => rw [ForwardStreamResponse]
          rw [if_neg (by simp [hpre'])]
        have hcut : sseCut (l :: rest) = l :: sseCut rest := by
          conv_lhs => rw [sseCut]
          rw [if_neg hlne]
        rw [hstep, ih]
        unfold sseForwardSpec
        rw [hcut, List.filter_cons_of_neg
          (p := fun (s : String) => "data: ".data.isPrefixOf s.data) (by simp [hpre'])]

/-- The LIVE streaming path: the loop of `handleStreamRequest`
(server.go:196-202). Every scanner line is written to the client as
`line + "\n\n"` and flushed; there is no `data: ` filtering and no
`data: [DONE]` handling — forwarding continues until the upstream body
ends. The returned list is the sequence of `c.Writer.Write` payloads. -/
def handleStreamLines : List String → List String
  | [] => []
  | line :: rest => (line ++ "\n\n") :: handleStreamLines rest

/-- C2: refuted on the live code — the streaming handler the gateway
actually runs (`handleStreamLines`, from server.go:196-202) forwards
EVERY upstream line with blank-line framing and does not stop at
`data: [DONE]`: on the upstream lines
`["data: hello", "data: [DONE]", "data: after"]` it also forwards
`data: after`, while the claimed behaviour (the spec's forwarding
contract, `sseForwardSpec`, implemented only by the uncalled relay
helper `ForwardStreamResponse`) ends at the marker. -/
theorem C2_done_marker_not_terminal :
    (∀ lines : List String, handleStreamLines lines = lines.map (fun l => l ++ "\n\n")) ∧
    handleStreamLines ["data: hello", "data: [DONE]", "data: after"] =
      ["data: hello\n\n", "data: [DONE]\n\n", "data: after\n\n"] ∧
    sseForwardSpec ["data: hello", "data: [DONE]", "data: after"] =
      ["data: hello\n\n", "data: [DONE]\n\n"] ∧
    handleStreamLines ["data: hello", "data: [DONE]", "data: after"] ≠
      sseForwardSpec ["data: hello", "data: [DONE]", "data: after"] := by
  refine ⟨?_, rfl, by decide, by decide⟩
  intro lines
  induction lines with
  | nil => rfl
  | cons l rest ih => simp [handleStreamLines, ih]

/-! ### C6: Gemini mixed text/executable-code parts -/

/-- Concatenation of the texts of a Gemini part list. -/
def geminiTextsOf : List GeminiPart → String
  | [] => ""
  | p :: rest => p.text ++ geminiTextsOf rest

/-- The `{"type":"code"}` elements contributed by a Gemini part list. -/
def geminiCodeObjsOf : List GeminiPart → List Json
  | [] => []
  | p :: rest =>
      (match p.executableCode with
        | some ec => [Json.obj [("type", Json.str "code"), ("code", Json.str ec.code)]]
        | none => []) ++ geminiCodeObjsOf rest

theorem geminiPartsLoop_append (a b : List GeminiPart) :
    ∀ cps t, geminiPartsLoop (a ++ b) cps t =
      geminiPartsLoop b (geminiPartsLoop a cps t).1 (geminiPartsLoop a cps t).2 := by
  induction a with
  | nil => intro cps t; rfl
  | cons p rest ih => intro cps t; simp only [List.cons_append, geminiPartsLoop]; exact ih _ _

/-- Step lemma: a pure text part (nonempty text, no code) empties the
collected parts and extends the text. -/
theorem geminiPartsLoop_cons_text {p : GeminiPart} (rest : List GeminiPart)
    (cps : List Json) (t : String)
    (hpc : p.executableCode = none) (hpt : p.text ≠ "") :
    geminiPartsLoop (p :: rest) cps t = geminiPartsLoop rest [] (t ++ p.text) := by
  simp [geminiPartsLoop, hpc, hpt]

/-- Step lemma: a part with empty text and no code changes nothing. -/
theorem geminiPartsLoop_cons_skip {p : GeminiPart} (rest : List GeminiPart)
    (cps : List Json) (t : String)
    (hpc : p.executableCode = none) (hpt : p.text = "") :
    geminiPartsLoop (p :: rest) cps t = geminiPartsLoop rest cps t := by
  simp [geminiPartsLoop, hpc, hpt]

/-- Step lemma: a code part with empty text appends its code object. -/
theorem geminiPartsLoop_cons_code {p : GeminiPart} (rest : List GeminiPart)
    (cps : List Json) (t : String) {ec : GeminiExecutableCode}
    (hpc : p.executableCode = some ec) (hpt : p.text = "") :
    geminiPartsLoop (p :: rest) cps t =
      geminiPartsLoop rest
        (cps ++ [Json.obj [("type", Json.str "code"), ("code", Json.str ec.code)]]) t := by
  simp [geminiPartsLoop, hpc, hpt]

/-- Parts that carry neither text nor code leave the loop state alone. -/
theorem geminiPartsLoop_no_effect :
    ∀ (ps : List GeminiPart) (cps : List Json) (t : String),
      (∀ p ∈ ps, p.executableCode = none ∧ p.text = "") →
      geminiPartsLoop ps cps t = (cps, t) := by
  intro ps
  induction ps with
  | nil => intro cps t _; rfl
  | cons p rest ih =>
      intro cps t h
      have hp := h p (List.mem_cons_self p rest)
      rw [geminiPartsLoop_cons_skip rest cps t hp.1 hp.2]
      exact ih cps t (fun q hq => h q (List.mem_cons_of_mem p hq))

theorem geminiTextsOf_empty :
    ∀ ts : List GeminiPart, (∀ p ∈ ts, p.text = "") → geminiTextsOf ts = "" := by
  intro ts
  induction ts with
  | nil => intro _; rfl
  | cons p rest ih =>
      intro h
      simp only [geminiTextsOf, h p (List.mem_cons_self p rest),
        ih (fun q hq => h q (List.mem_cons_of_mem p hq))]
      rfl

/-- Over code-free parts with at least one nonempty text, the loop ends
with an empty part list and the accumulated text. -/
theorem geminiPartsLoop_texts :
    ∀ (ts : List GeminiPart) (cps : List Json) (t : String),
      (∀ p ∈ ts, p.executableCode = none) → (∃ p ∈ ts, p.text ≠ "") →
      geminiPartsLoop ts cps t = ([], t ++ geminiTextsOf ts) := by
  intro ts
  induction ts with
  | nil => intro cps t _ hex; rcases hex with ⟨p, hp, _⟩; cases hp
  | cons p rest ih =>
      intro cps t hcode hex
      have hpcode : p.executableCode = none := hcode p (List.mem_cons_self p rest)
      by_cases hpt : p.text = ""
      · have hex' : ∃ q ∈ rest, q.text ≠ "" := by
          rcases hex with ⟨q, hq, hqt⟩
          rcases List.mem_cons.mp hq with hq | hq
          · exact absurd (hq ▸ hpt) hqt
          · exact ⟨q, hq, hqt⟩
        rw [geminiPartsLoop_cons_skip rest cps t hpcode hpt,
          ih cps t (fun q hq => hcode q (List.mem_cons_of_mem p hq)) hex']
        simp [geminiTextsOf, hpt]
      · rw [geminiPartsLoop_cons_text rest cps t hpcode hpt]
        by_cases hex' : ∃ q ∈ rest, q.text ≠ ""
        · rw [ih [] (t ++ p.text) (fun q hq => hcode q (List.mem_cons_of_mem p hq)) hex']
          simp [geminiTextsOf, String.append_assoc]
        · have hall : ∀ q ∈ rest, q.executableCode = none ∧ q.text = "" := by
            intro q hq
            refine ⟨hcode q (List.mem_cons_of_mem p hq), ?_⟩
            by_contra hqt
            exact hex' ⟨q, hq, hqt⟩
          rw [geminiPartsLoop_no_effect rest [] (t ++ p.text) hall]
          simp [geminiTextsOf, geminiTextsOf_empty rest (fun q hq => (hall q hq).2),
            String.append_empty]

/-- Over parts with no (nonempty) text, the loop appends exactly the code
objects and leaves the text alone. -/
theorem geminiPartsLoop_codes :
    ∀ (cs : List GeminiPart) (cps : List Json) (t : String),
      (∀ p ∈ cs, p.text = "") →
      geminiPartsLoop cs cps t = (cps ++ geminiCodeObjsOf cs, t) := by
  intro cs
  induction cs with
  | nil => intro cps t _; simp [geminiPartsLoop, geminiCodeObjsOf]
  | cons p rest ih =>
      intro cps t h
      have hpt : p.text = "" := h p (List.mem_cons_self p rest)
      have hrest := fun cps' => ih cps' t (fun q hq => h q (List.mem_cons_of_mem p hq))
      cases hpc : p.executableCode with
      | none =>
          rw [geminiPartsLoop_cons_skip rest cps t hpc hpt, hrest cps]
          simp [geminiCodeObjsOf, hpc]
      | some ec =>
          rw [geminiPartsLoop_cons_code rest cps t hpc hpt, hrest _]
          simp [geminiCodeObjsOf, hpc]

theorem geminiCodeObjsOf_ne_nil :
    ∀ cs : List GeminiPart, (∃ p ∈ cs, p.executableCode ≠ none) →
      geminiCodeObjsOf cs ≠ [] := by
  intro cs
  induction cs with
  | nil => rintro ⟨p, hp, _⟩; cases hp
  | cons p rest ih =>
      rintro ⟨q, hq, hqc⟩ hcontra
      rcases List.mem_cons.mp hq with hq | hq
      · subst hq
        cases hpc : q.executableCode with
        | none => exact hqc hpc
        | some ec => simp [geminiCodeObjsOf, hpc] at hcontra
      · cases hpc : p.executableCode with
        | none =>
            simp only [geminiCodeObjsOf, hpc, List.nil_append] at hcontra
            exact ih ⟨q, hq, hqc⟩ hcontra
        | some ec => simp [geminiCodeObjsOf, hpc] at hcontra

theorem geminiTextsOf_ne_empty :
    ∀ ts : List GeminiPart, (∃ p ∈ ts, p.text ≠ "") → geminiTextsOf ts ≠ "" := by
  intro ts
  induction ts with
  | nil => rintro ⟨p, hp, _⟩; cases hp
  | cons p rest ih =>
      rintro ⟨q, hq, hqt⟩ hcontra
      have hdata : p.text.data ++ (geminiTextsOf rest).data = [] := by
        have := congrArg String.data hcontra
        rwa [show geminiTextsOf (p :: rest) = p.text ++ geminiTextsOf rest from rfl,
          String.data_append] at this
      rcases List.append_eq_nil.mp hdata with ⟨h1, h2⟩
      rcases List.mem_cons.mp hq with hq | hq
      · exact hqt (hq ▸ String.ext h1)
      · exact ih ⟨q, hq, hqt⟩ (String.ext h2)

def Json.isArr : Json → Bool
  | arr _ => true
  | _ => false

/-- C6 counterexample: a Gemini part list with an executable-code part
BEFORE the text part — `[{code: print(1)}, {text: "t"}]` — imports as the
bare string `"t"`: the nonempty text part resets the collected part list
(converter.go:346), so the code part is dropped and the unified content is
not a multi-part sequence at all. -/
theorem C6_counterexample :
    geminiContentValue [⟨"", some ⟨"python", "print(1)"⟩⟩, ⟨"t", none⟩] = Json.str "t" ∧
    (geminiContentValue [⟨"", some ⟨"python", "print(1)"⟩⟩, ⟨"t", none⟩]).isArr = false :=
  ⟨rfl, rfl⟩

/-- C6 (amended): for a Gemini content whose part list has all its (pure)
text parts — at least one with nonempty text — BEFORE all its remaining
parts, which carry no text and include at least one executable-code part,
the importer produces a multi-part content: one text part holding the
concatenated text first, followed by the code parts in order. Code parts
occurring before a later nonempty text part are dropped by the importer
(the claim's "in any order" fails). The first conjunct ties the per-part
computation to the importer's message construction. -/
theorem C6_text_first_code_after :
    (∀ b : GeminiBody, (GeminiToUnified b).messages =
      b.contents.map (fun c => ⟨geminiImportRole c.role, geminiContentValue c.parts⟩)) ∧
    (∀ ts cs : List GeminiPart,
      (∀ p ∈ ts, p.executableCode = none) →
      (∃ p ∈ ts, p.text ≠ "") →
      (∀ p ∈ cs, p.text = "") →
      (∃ p ∈ cs, p.executableCode ≠ none) →
      geminiContentValue (ts ++ cs) =
        Json.arr
          (Json.obj [("type", Json.str "text"), ("text", Json.str (geminiTextsOf ts))] ::
            geminiCodeObjsOf cs)) := by
  constructor
  · intro b; rfl
  · intro ts cs hts htx hcs hcc
    have hloop : geminiPartsLoop (ts ++ cs) [] "" =
        (geminiCodeObjsOf cs, geminiTextsOf ts) := by
      rw [geminiPartsLoop_append, geminiPartsLoop_texts ts [] "" hts htx]
      show geminiPartsLoop cs [] ("" ++ geminiTextsOf ts) = _
      rw [geminiPartsLoop_codes cs [] _ hcs, List.nil_append, String.empty_append]
    have h1 : (geminiCodeObjsOf cs).isEmpty = false := by
      cases h : geminiCodeObjsOf cs with
      | nil => exact absurd h (geminiCodeObjsOf_ne_nil cs hcc)
      | cons a l => rfl
    have h2 : geminiTextsOf ts ≠ "" := geminiTextsOf_ne_empty ts htx
    unfold geminiContentValue
    rw [hloop]
    simp [h1, h2]

/-- C6 witness: `[{text:"t"}, {code:"print(1)"}]` imports as the two-part
sequence with the text part first. -/
theorem C6_witness :
    geminiContentValue [⟨"t", none⟩, ⟨"", some ⟨"python", "print(1)"⟩⟩] =
      Json.arr [Json.obj [("type", Json.str "text"), ("text", Json.str "t")],
        Json.obj [("type", Json.str "code"), ("code", Json.str "print(1)")]] := by
  have h := C6_text_first_code_after.2 [⟨"t", none⟩] [⟨"", some ⟨"python", "print(1)"⟩⟩]
    (by decide) (by decide) (by decide) (by decide)
  simpa [geminiTextsOf, geminiCodeObjsOf, String.append_empty] using h

/-! ### C3: per-dialect round-trip of roles and concatenated text

The spec-side "model-visible semantics" of a message is its role together
with the concatenation of its text content (a bare string is itself; a
part sequence contributes its `type == "text"` parts in order). -/

/-- Spec-side view: concatenated text of a content value. -/
def textViewOf (content : Json) : String :=
  match content with
  | Json.str s => s
  | Json.arr items => textOfItems items
  | _ => ""

/-- Spec-side view of one JSON-shaped message: role and concatenated text. -/
def msgViewF (m : Json) : Option (String × String) :=
  match m with
  | Json.obj mm =>
      some (reqString mm "role", textViewOf ((lookupField mm "content").getD Json.null))
  | _ => none

/-- Spec-side view of the `messages` of an OpenAI/Claude-shaped body. -/
def viewMessagesJson (j : Json) : List (String × String) :=
  match j with
  | Json.obj fs =>
      match lookupField fs "messages" with
      | some (Json.arr msgs) => msgs.filterMap msgViewF
      | _ => []
  | _ => []

/-- Well-formed OpenAI body: an object whose `messages` field is an array
of objects. -/
def wfOpenAIBody (j : Json) : Bool :=
  match j with
  | Json.obj fs =>
      match lookupField fs "messages" with
      | some (Json.arr msgs) =>
          msgs.all (fun m => match m with | Json.obj _ => true | _ => false)
      | _ => false
  | _ => false

/-- Spec-side view of a Claude body: the (nonempty) system prompt is the
dialect's leading system-role message, followed by `messages`. -/
def viewClaudeBody (b : ClaudeBody) : List (String × String) :=
  (if b.system ≠ "" then [("system", b.system)] else []) ++
    b.messages.map (fun m => (m.role, textViewOf m.content))

/-- Spec-side view of a Gemini body: role and concatenated part texts. -/
def viewGeminiBody (b : GeminiBody) : List (String × String) :=
  b.contents.map (fun c => (c.role, geminiTextsOf c.parts))

def geminiOutTextsOf : List GeminiOutPart → String
  | [] => ""
  | p :: rest => p.text ++ geminiOutTextsOf rest

/-- Spec-side view of an outbound Gemini request. -/
def viewGeminiOut (r : GeminiOutRequest) : List (String × String) :=
  r.contents.map (fun c => (c.role, geminiOutTextsOf c.parts))

/-- The code object built by the Gemini importer for an executable-code
part. -/
def codeObjJson (code : String) : Json :=
  Json.obj [("type", Json.str "code"), ("code", Json.str code)]

/-- Step lemma: a part with both nonempty text and code resets the
collected parts, appends the text, then appends its code object. -/
theorem geminiPartsLoop_cons_text_code {p : GeminiPart} (rest : List GeminiPart)
    (cps : List Json) (t : String) {ec : GeminiExecutableCode}
    (hpc : p.executableCode = some ec) (hpt : p.text ≠ "") :
    geminiPartsLoop (p :: rest) cps t =
      geminiPartsLoop rest [codeObjJson ec.code] (t ++ p.text) := by
  simp [geminiPartsLoop, codeObjJson, hpc, hpt]

/-- The loop's text accumulator always ends as the accumulated input plus
the concatenation of all part texts. -/
theorem geminiPartsLoop_snd :
    ∀ (parts : List GeminiPart) (cps : List Json) (t : String),
      (geminiPartsLoop parts cps t).2 = t ++ geminiTextsOf parts := by
  intro parts
  induction parts with
  | nil => intro cps t; simp [geminiPartsLoop, geminiTextsOf, String.append_empty]
  | cons p rest ih =>
      intro cps t
      by_cases hpt : p.text = ""
      · cases hpc : p.executableCode with
        | none =>
            rw [geminiPartsLoop_cons_skip rest cps t hpc hpt, ih]
            simp [geminiTextsOf, hpt]
        | some ec =>
            rw [geminiPartsLoop_cons_code rest cps t hpc hpt, ih]
            simp [geminiTextsOf, hpt]
      · cases hpc : p.executableCode with
        | none =>
            rw [geminiPartsLoop_cons_text rest cps t hpc hpt, ih]
            simp [geminiTextsOf, String.append_assoc]
        | some ec =>
            rw [geminiPartsLoop_cons_text_code rest cps t hpc hpt, ih]
            simp [geminiTextsOf, String.append_assoc]

/-- Every element the loop collects is a code object. -/
theorem geminiPartsLoop_fst_code :
    ∀ (parts : List GeminiPart) (cps : List Json) (t : String),
      (∀ x ∈ cps, ∃ c, x = codeObjJson c) →
      ∀ x ∈ (geminiPartsLoop parts cps t).1, ∃ c, x = codeObjJson c := by
  intro parts
  induction parts with
  | nil => intro cps t h; exact h
  | cons p rest ih =>
      intro cps t h
      by_cases hpt : p.text = ""
      · cases hpc : p.executableCode with
        | none =>
            rw [geminiPartsLoop_cons_skip rest cps t hpc hpt]
            exact ih cps t h
        | some ec =>
            rw [geminiPartsLoop_cons_code rest cps t hpc hpt]
            refine ih _ t ?_
            intro x hx
            rcases List.mem_append.mp hx with hx | hx
            · exact h x hx
            · rcases List.mem_singleton.mp hx with rfl
              exact ⟨ec.code, rfl⟩
      · cases hpc : p.executableCode with
        | none =>
            rw [geminiPartsLoop_cons_text rest cps t hpc hpt]
            refine ih _ _ ?_
            intro x hx
            cases hx
        | some ec =>
            rw [geminiPartsLoop_cons_text_code rest cps t hpc hpt]
            refine ih _ _ ?_
            intro x hx
            rcases List.mem_singleton.mp hx with rfl
            exact ⟨ec.code, rfl⟩

/-- Code objects contribute no text. -/
theorem textOfItems_codeObjs :
    ∀ l : List Json, (∀ x ∈ l, ∃ c, x = codeObjJson c) → textOfItems l = "" := by
  intro l
  induction l with
  | nil => intro _; rfl
  | cons a rest ih =>
      intro h
      rcases h a (List.mem_cons_self a rest) with ⟨c, rfl⟩
      have hrest := ih (fun x hx => h x (List.mem_cons_of_mem _ hx))
      simp [textOfItems, codeObjJson, lookupField, hrest]

/-- The text the Gemini exporter re-extracts from an imported Gemini
content is exactly the concatenation of the original part texts. -/
theorem geminiMsgText_contentValue (r : String) (parts : List GeminiPart) :
    geminiMsgText ⟨r, geminiContentValue parts⟩ = geminiTextsOf parts := by
  rcases hpr : geminiPartsLoop parts [] "" with ⟨cps, t⟩
  have hsnd : t = geminiTextsOf parts := by
    have h := geminiPartsLoop_snd parts [] ""
    rw [hpr] at h
    simpa [String.empty_append] using h
  have hcode : ∀ x ∈ cps, ∃ c, x = codeObjJson c := by
    have h := geminiPartsLoop_fst_code parts [] "" (by intro x hx; cases hx)
    rw [hpr] at h
    exact h
  have hval : geminiContentValue parts =
      (if cps.isEmpty = false ∧ t ≠ "" then
        Json.arr (Json.obj [("type", Json.str "text"), ("text", Json.str t)] :: cps)
      else if cps.isEmpty = false then Json.arr cps
      else Json.str t) := by
    unfold geminiContentValue
    rw [hpr]
  by_cases h1 : cps.isEmpty = false ∧ t ≠ ""
  · rw [hval, if_pos h1]
    have hstep : geminiMsgText
        ⟨r, Json.arr (Json.obj [("type", Json.str "text"), ("text", Json.str t)] :: cps)⟩ =
        t ++ textOfItems cps := by
      simp [geminiMsgText, extractTextFromContent, textOfItems, lookupField]
    rw [hstep, textOfItems_codeObjs cps hcode, String.append_empty]
    exact hsnd
  · by_cases h2 : cps.isEmpty = false
    · have ht : t = "" := by
        by_contra hne
        exact h1 ⟨h2, hne⟩
      rw [hval, if_neg h1, if_pos h2]
      have hstep : geminiMsgText ⟨r, Json.arr cps⟩ = textOfItems cps := rfl
      rw [hstep, textOfItems_codeObjs cps hcode, ← hsnd, ht]
    · rw [hval, if_neg h1, if_neg h2]
      exact hsnd

/-- Importer/exporter role mapping round-trips on the well-formed Gemini
roles. -/
theorem geminiRole_roundtrip {r : String} (h : r = "user" ∨ r = "model") :
    geminiExportRole (geminiImportRole r) = r := by
  rcases h with h | h <;> subst h <;> rfl

/-- Marshaled unified messages view back as their role and text. -/
theorem filterMap_msgView_map (msgs : List UnifiedMessage) :
    (msgs.map unifiedMessageToJson).filterMap msgViewF =
      msgs.map (fun m => (m.role, textViewOf m.content)) := by
  induction msgs with
  | nil => rfl
  | cons m rest ih =>
      simp only [List.map_cons, List.filterMap_cons]
      rw [show msgViewF (unifiedMessageToJson m) =
        some (m.role, textViewOf m.content) from rfl, ih]

/-- The OpenAI exporter's body views as the unified messages' view. -/
theorem viewMessagesJson_openai_export (u : UnifiedRequest) :
    viewMessagesJson (UnifiedToOpenAI u) =
      u.messages.map (fun m => (m.role, textViewOf m.content)) := by
  have h : viewMessagesJson (UnifiedToOpenAI u) =
      (u.messages.map unifiedMessageToJson).filterMap msgViewF := rfl
  rw [h, filterMap_msgView_map]

/-- The Claude exporter's body views as the unified messages' view. -/
theorem viewMessagesJson_claude_export (u : UnifiedRequest) :
    viewMessagesJson (UnifiedToClaude u) =
      u.messages.map (fun m => (m.role, textViewOf m.content)) := by
  have h : viewMessagesJson (UnifiedToClaude u) =
      (u.messages.map unifiedMessageToJson).filterMap msgViewF := rfl
  rw [h, filterMap_msgView_map]

theorem openAIMessages_filterMap_view (msgs : List Json) :
    (msgs.filterMap openAIMsgImport).map (fun m => (m.role, textViewOf m.content)) =
      msgs.filterMap msgViewF := by
  induction msgs with
  | nil => rfl
  | cons m rest ih => cases m <;> simp [openAIMsgImport, msgViewF, ih]

/-- The OpenAI importer's messages view as the body's message view. -/
theorem openAIMessages_view (fs : List (String × Json)) (msgs : List Json)
    (h : lookupField fs "messages" = some (Json.arr msgs)) :
    (openAIMessages fs).map (fun m => (m.role, textViewOf m.content)) =
      msgs.filterMap msgViewF := by
  unfold openAIMessages
  rw [h]
  exact openAIMessages_filterMap_view msgs

/-- C3: per supported dialect, exporting the imported body back to the
same dialect preserves, message by message in order, the role and the
concatenated text content. For OpenAI, over well-formed bodies; for
Claude, the body's nonempty `system` prompt counts as the dialect's
leading system-role message (the exporter re-emits it as one); for
Gemini, over the dialect's well-formed roles `user`/`model`. -/
theorem C3_roundtrip_roles_and_text :
    (∀ (j : Json) (u : UnifiedRequest), wfOpenAIBody j = true →
      OpenAIToUnified j = Except.ok u →
      viewMessagesJson (UnifiedToOpenAI u) = viewMessagesJson j) ∧
    (∀ b : ClaudeBody,
      viewMessagesJson (UnifiedToClaude (ClaudeToUnified b)) = viewClaudeBody b) ∧
    (∀ b : GeminiBody, (∀ c ∈ b.contents, c.role = "user" ∨ c.role = "model") →
      viewGeminiOut (UnifiedToGemini (GeminiToUnified b)) = viewGeminiBody b) := by
  refine ⟨?_, ?_, ?_⟩
  · intro j u hwf himp
    cases j with
    | obj fs =>
        have hmsg : u.messages = openAIMessages fs :=
          (congrArg (fun e => match e with
            | Except.ok v => v.messages
            | Except.error _ => []) himp).symm
        rw [viewMessagesJson_openai_export, hmsg]
        cases hm : lookupField fs "messages" with
        | none => rw [wfOpenAIBody, hm] at hwf; cases hwf
        | some v =>
            cases v with
            | arr msgs =>
                rw [openAIMessages_view fs msgs hm]
                show msgs.filterMap msgViewF = viewMessagesJson (Json.obj fs)
                rw [viewMessagesJson, hm]
            | null => rw [wfOpenAIBody, hm] at hwf; cases hwf
            | bool b => rw [wfOpenAIBody, hm] at hwf; cases hwf
            | num n => rw [wfOpenAIBody, hm] at hwf; cases hwf
            | str s => rw [wfOpenAIBody, hm] at hwf; cases hwf
            | obj o => rw [wfOpenAIBody, hm] at hwf; cases hwf
    | null => exact absurd himp (by simp [OpenAIToUnified])
    | bool b => exact absurd himp (by simp [OpenAIToUnified])
    | num n => exact absurd himp (by simp [OpenAIToUnified])
    | str s => exact absurd himp (by simp [OpenAIToUnified])
    | arr l => exact absurd himp (by simp [OpenAIToUnified])
  · intro b
    rw [viewMessagesJson_claude_export]
    show ((if b.system ≠ "" then [(⟨"system", Json.str b.system⟩ : UnifiedMessage)] else []) ++
        b.messages.map (fun m => (⟨m.role, m.content⟩ : UnifiedMessage))).map
          (fun m => (m.role, textViewOf m.content)) = viewClaudeBody b
    rw [List.map_append, List.map_map, viewClaudeBody]
    by_cases hs : b.system = ""
    · simp [hs]
    · simp [hs]
      rfl
  · intro b hroles
    show (((b.contents.map (fun c =>
        (⟨geminiImportRole c.role, geminiContentValue c.parts⟩ : UnifiedMessage))).map
          (fun m => (⟨geminiExportRole m.role, [⟨geminiMsgText m⟩]⟩ : GeminiOutContent))).map
            (fun c => (c.role, geminiOutTextsOf c.parts))) = viewGeminiBody b
    rw [List.map_map, List.map_map, viewGeminiBody]
    refine List.map_congr_left ?_
    intro c hc
    show (geminiExportRole (geminiImportRole c.role),
        geminiOutTextsOf [⟨geminiMsgText ⟨geminiImportRole c.role, geminiContentValue c.parts⟩⟩]) =
      (c.role, geminiTextsOf c.parts)
    rw [geminiRole_roundtrip (hroles c hc)]
    show (c.role, geminiMsgText ⟨geminiImportRole c.role, geminiContentValue c.parts⟩ ++ "") = _
    rw [String.append_empty, geminiMsgText_contentValue]

/-- Concrete bodies for the C3 witness. -/
def jOpenAIEx : Json :=
  Json.obj [("model", Json.str "m"),
    ("messages", Json.arr [Json.obj [("role", Json.str "user"), ("content", Json.str "hi")]])]

def uOpenAIEx : UnifiedRequest :=
  { model := "m", messages := [⟨"user", Json.str "hi"⟩] }

def bClaudeEx : ClaudeBody :=
  { model := "m", maxTokens := 10, system := "sys",
    messages := [⟨"user", Json.str "hi"⟩] }

def bGeminiEx : GeminiBody :=
  { model := "m",
    contents := [⟨"user", [⟨"hello", none⟩]⟩, ⟨"model", [⟨"yo", none⟩]⟩] }

/-- C3 witness: the round-trip preserves roles and text on one concrete
body of each dialect. -/
theorem C3_witness :
    (wfOpenAIBody jOpenAIEx = true ∧
      viewMessagesJson (UnifiedToOpenAI uOpenAIEx) = viewMessagesJson jOpenAIEx) ∧
    viewMessagesJson (UnifiedToClaude (ClaudeToUnified bClaudeEx)) = viewClaudeBody bClaudeEx ∧
    viewGeminiOut (UnifiedToGemini (GeminiToUnified bGeminiEx)) = viewGeminiBody bGeminiEx :=
  ⟨⟨rfl, C3_roundtrip_roles_and_text.1 jOpenAIEx uOpenAIEx rfl rfl⟩,
    C3_roundtrip_roles_and_text.2.1 bClaudeEx,
    C3_roundtrip_roles_and_text.2.2 bGeminiEx (by decide)⟩

/-! ### C8: single-text-part sequence versus bare string -/

/-- The single-text-part content `[{"type":"text","text":t}]`. -/
def textPartJson (t : String) : Json :=
  Json.arr [Json.obj [("type", Json.str "text"), ("text", Json.str t)]]

/-- A JSON chat message `{"role": r, "content": c}`. -/
def msgJson (r : String) (c : Json) : Json :=
  Json.obj [("role", Json.str r), ("content", c)]

/-- An OpenAI-dialect body with the given model and messages. -/
def openAIBody (m : String) (msgs : List Json) : Json :=
  Json.obj [("model", Json.str m), ("messages", Json.arr msgs)]

/-- Two message lists that agree except that some messages carry the
single-text-part form on the left and the bare string on the right. -/
inductive JMsgListEquiv : List Json → List Json → Prop where
  | nil : JMsgListEquiv [] []
  | consEq (m : Json) {l1 l2 : List Json} :
      JMsgListEquiv l1 l2 → JMsgListEquiv (m :: l1) (m :: l2)
  | consNorm (r t : String) {l1 l2 : List Json} :
      JMsgListEquiv l1 l2 →
      JMsgListEquiv (msgJson r (textPartJson t) :: l1) (msgJson r (Json.str t) :: l2)

/-- The same equivalence on imported unified messages. -/
inductive UMsgListEquiv : List UnifiedMessage → List UnifiedMessage → Prop where
  | nil : UMsgListEquiv [] []
  | consEq (m : UnifiedMessage) {l1 l2 : List UnifiedMessage} :
      UMsgListEquiv l1 l2 → UMsgListEquiv (m :: l1) (m :: l2)
  | consNorm (r t : String) {l1 l2 : List UnifiedMessage} :
      UMsgListEquiv l1 l2 →
      UMsgListEquiv (⟨r, textPartJson t⟩ :: l1) (⟨r, Json.str t⟩ :: l2)

/-- Importing equivalent message lists yields equivalent unified message
lists (the OpenAI importer stores content verbatim). -/
theorem filterMap_import_equiv {msgs1 msgs2 : List Json}
    (h : JMsgListEquiv msgs1 msgs2) :
    UMsgListEquiv (msgs1.filterMap openAIMsgImport) (msgs2.filterMap openAIMsgImport) := by
  induction h with
  | nil => exact UMsgListEquiv.nil
  | consEq m h ih =>
      cases hfm : openAIMsgImport m with
      | none => simpa [List.filterMap_cons, hfm] using ih
      | some x =>
          simp only [List.filterMap_cons, hfm]
          exact UMsgListEquiv.consEq x ih
  | consNorm r t h ih =>
      rw [show (msgJson r (textPartJson t) :: _).filterMap openAIMsgImport =
          (⟨r, textPartJson t⟩ : UnifiedMessage) :: _ from rfl,
        show (msgJson r (Json.str t) :: _).filterMap openAIMsgImport =
          (⟨r, Json.str t⟩ : UnifiedMessage) :: _ from rfl]
      exact UMsgListEquiv.consNorm r t ih

/-- Equivalent unified messages have the same role/extracted-text view. -/
theorem umsg_view_equiv {l1 l2 : List UnifiedMessage} (h : UMsgListEquiv l1 l2) :
    l1.map (fun m => (m.role, textViewOf m.content)) =
      l2.map (fun m => (m.role, textViewOf m.content)) := by
  induction h with
  | nil => rfl
  | consEq m h ih => simp [ih]
  | consNorm r t h ih =>
      have hhead : textViewOf (textPartJson t) = t := by
        simp [textViewOf, textPartJson, textOfItems, lookupField, String.append_empty]
      simp only [List.map_cons, ih]
      congr 1
      show (r, textViewOf (textPartJson t)) = (r, textViewOf (Json.str t))
      rw [hhead]
      rfl

/-- The DeepSeek exporter flattens both content forms to the same string. -/
theorem umsg_deepseek_equiv {l1 l2 : List UnifiedMessage} (h : UMsgListEquiv l1 l2) :
    l1.map deepSeekMessageToJson = l2.map deepSeekMessageToJson := by
  induction h with
  | nil => rfl
  | consEq m h ih => simp [ih]
  | consNorm r t h ih =>
      have hhead : normalizeContentForDeepSeek (textPartJson t) = t := by
        simp [normalizeContentForDeepSeek, textPartJson, textOfItems, lookupField,
          String.append_empty]
      simp only [List.map_cons, ih]
      congr 1
      show deepSeekMessageToJson ⟨r, textPartJson t⟩ = deepSeekMessageToJson ⟨r, Json.str t⟩
      simp [deepSeekMessageToJson, hhead]
      rfl

/-- The Gemini exporter extracts the same text from both content forms. -/
theorem umsg_gemini_equiv {l1 l2 : List UnifiedMessage} (h : UMsgListEquiv l1 l2) :
    l1.map (fun m => (⟨geminiExportRole m.role, [⟨geminiMsgText m⟩]⟩ : GeminiOutContent)) =
      l2.map (fun m => (⟨geminiExportRole m.role, [⟨geminiMsgText m⟩]⟩ : GeminiOutContent)) := by
  induction h with
  | nil => rfl
  | consEq m h ih => simp [ih]
  | consNorm r t h ih =>
      have hhead : geminiMsgText ⟨r, textPartJson t⟩ = t := by
        simp [geminiMsgText, extractTextFromContent, textPartJson, textOfItems,
          lookupField, String.append_empty]
      simp only [List.map_cons, ih]
      congr 1
      show (⟨geminiExportRole r, [⟨geminiMsgText ⟨r, textPartJson t⟩⟩]⟩ : GeminiOutContent) =
        ⟨geminiExportRole r, [⟨geminiMsgText ⟨r, Json.str t⟩⟩]⟩
      rw [hhead]
      rfl

theorem openAIToUnified_obj (fs : List (String × Json)) :
    OpenAIToUnified (Json.obj fs) = Except.ok (openAIImportRecord fs) := rfl

/-- First message's content of an exported body, as a probe. -/
def firstMsgContent (j : Json) : Json :=
  match j with
  | Json.obj fs =>
      match lookupField fs "messages" with
      | some (Json.arr (m :: _)) =>
          match m with
          | Json.obj mm => (lookupField mm "content").getD Json.null
          | _ => Json.null
      | _ => Json.null
  | _ => Json.null

/-- The `messages` field of an exported body, as a probe. -/
def msgsOf (j : Json) : Option Json :=
  match j with
  | Json.obj fs => lookupField fs "messages"
  | _ => none

def jA8 : Json := openAIBody "m" [msgJson "user" (textPartJson "hi")]

def jB8 : Json := openAIBody "m" [msgJson "user" (Json.str "hi")]

def uA8 : UnifiedRequest := { model := "m", messages := [⟨"user", textPartJson "hi"⟩] }

def uB8 : UnifiedRequest := { model := "m", messages := [⟨"user", Json.str "hi"⟩] }

/-- C8 counterexample: two OpenAI bodies that differ only in one message's
content — `[{"type":"text","text":"hi"}]` versus `"hi"` — import to
unified requests on which both the OPENAI and the CLAUDE exporter produce
different bodies (the message content is passed through verbatim: an
array on one side, a string on the other), refuting "every exporter
produces the same output for both". -/
theorem C8_counterexample :
    OpenAIToUnified jA8 = Except.ok uA8 ∧
    OpenAIToUnified jB8 = Except.ok uB8 ∧
    (firstMsgContent (UnifiedToOpenAI uA8)).isArr = true ∧
    (firstMsgContent (UnifiedToOpenAI uB8)).isArr = false ∧
    UnifiedToOpenAI uA8 ≠ UnifiedToOpenAI uB8 ∧
    (firstMsgContent (UnifiedToClaude uA8)).isArr = true ∧
    (firstMsgContent (UnifiedToClaude uB8)).isArr = false ∧
    UnifiedToClaude uA8 ≠ UnifiedToClaude uB8 := by
  refine ⟨rfl, rfl, rfl, rfl, fun h => ?_, rfl, rfl, fun h => ?_⟩
  · exact absurd (congrArg (fun j => (firstMsgContent j).isArr) h) (by decide)
  · exact absurd (congrArg (fun j => (firstMsgContent j).isArr) h) (by decide)

/-! Congruence of the importer's non-message fields over bodies that agree
on every top-level field except `messages`. -/

theorem lookupField_splice_messages (pre post : List (String × Json)) (msgs : List Json)
    (h : lookupField pre "messages" = none) :
    lookupField (pre ++ ("messages", Json.arr msgs) :: post) "messages" =
      some (Json.arr msgs) := by
  induction pre with
  | nil => simp [lookupField]
  | cons kv rest ih =>
      rcases kv with ⟨k, v⟩
      by_cases hk : k = "messages"
      · rw [lookupField, if_pos hk] at h
        cases h
      · rw [List.cons_append, lookupField, if_neg hk]
        rw [lookupField, if_neg hk] at h
        exact ih h

theorem lookupField_splice_other (pre post : List (String × Json)) (v v' : Json)
    (key : String) (h : key ≠ "messages") :
    lookupField (pre ++ ("messages", v) :: post) key =
      lookupField (pre ++ ("messages", v') :: post) key := by
  induction pre with
  | nil =>
      rw [List.nil_append, List.nil_append, lookupField, lookupField,
        if_neg (fun hh => h hh.symm), if_neg (fun hh => h hh.symm)]
  | cons kv rest ih =>
      rcases kv with ⟨k, w⟩
      rw [List.cons_append, List.cons_append, lookupField, lookupField]
      by_cases hk : k = key
      · rw [if_pos hk, if_pos hk]
      · rw [if_neg hk, if_neg hk]
        exact ih

theorem reqString_congr {fs1 fs2 : List (String × Json)} {key : String}
    (h : lookupField fs1 key = lookupField fs2 key) :
    reqString fs1 key = reqString fs2 key := by
  unfold reqString
  rw [h]

theorem reqBool_congr {fs1 fs2 : List (String × Json)} {key : String}
    (h : lookupField fs1 key = lookupField fs2 key) :
    reqBool fs1 key = reqBool fs2 key := by
  unfold reqBool
  rw [h]

theorem numField_congr {fs1 fs2 : List (String × Json)} {key : String}
    (h : lookupField fs1 key = lookupField fs2 key) :
    numField fs1 key = numField fs2 key := by
  unfold numField
  rw [h]

theorem goField_congr {fs1 fs2 : List (String × Json)} {key : String}
    (h : lookupField fs1 key = lookupField fs2 key) :
    goField fs1 key = goField fs2 key := by
  unfold goField
  rw [h]

theorem openAIStreamOptions_congr {fs1 fs2 : List (String × Json)}
    (h : lookupField fs1 "stream_options" = lookupField fs2 "stream_options") :
    openAIStreamOptions fs1 = openAIStreamOptions fs2 := by
  unfold openAIStreamOptions
  rw [h]

theorem openAITools_congr {fs1 fs2 : List (String × Json)}
    (h : lookupField fs1 "tools" = lookupField fs2 "tools") :
    openAITools fs1 = openAITools fs2 := by
  unfold openAITools
  rw [h]

/-- Bodies agreeing on every top-level field except `messages` import to
unified requests equal in every field except `messages`. -/
theorem openAIImportRecord_congr {fs1 fs2 : List (String × Json)}
    (h : ∀ key, key ≠ "messages" → lookupField fs1 key = lookupField fs2 key) :
    openAIImportRecord fs1 =
      { openAIImportRecord fs2 with messages := openAIMessages fs1 } := by
  unfold openAIImportRecord
  rw [reqString_congr (h "model" (by decide)),
    reqBool_congr (h "stream" (by decide)),
    numField_congr (h "max_tokens" (by decide)),
    numField_congr (h "max_completion_tokens" (by decide)),
    numField_congr (h "temperature" (by decide)),
    numField_congr (h "top_p" (by decide)),
    numField_congr (h "top_k" (by decide)),
    numField_congr (h "n" (by decide)),
    numField_congr (h "presence_penalty" (by decide)),
    numField_congr (h "frequency_penalty" (by decide)),
    goField_congr (h "stop" (by decide)),
    goField_congr (h "tool_choice" (by decide)),
    goField_congr (h "user" (by decide)),
    reqString_congr (h "user" (by decide)),
    openAIStreamOptions_congr (h "stream_options" (by decide)),
    goField_congr (h "prompt_cache_key" (by decide)),
    reqString_congr (h "prompt_cache_key" (by decide)),
    reqString_congr (h "reasoning_effort" (by decide)),
    openAITools_congr (h "tools" (by decide))]

/-- The DeepSeek exporter reads only these fields of the request. -/
theorem unifiedToDeepSeek_congr {u1 u2 : UnifiedRequest}
    (h1 : u1.model = u2.model) (h2 : u1.maxTokens = u2.maxTokens)
    (h3 : u1.temperature = u2.temperature) (h4 : u1.topP = u2.topP)
    (h5 : u1.stream = u2.stream) (h6 : u1.stop = u2.stop)
    (h7 : u1.presencePenalty = u2.presencePenalty)
    (h8 : u1.frequencyPenalty = u2.frequencyPenalty)
    (h9 : u1.messages.map deepSeekMessageToJson = u2.messages.map deepSeekMessageToJson) :
    UnifiedToDeepSeek u1 = UnifiedToDeepSeek u2 := by
  unfold UnifiedToDeepSeek
  rw [h1, h2, h3, h4, h5, h6, h7, h8, h9]

/-- The Gemini exporter reads only these fields of the request. -/
theorem unifiedToGemini_congr {u1 u2 : UnifiedRequest}
    (h1 : u1.temperature = u2.temperature) (h2 : u1.maxTokens = u2.maxTokens)
    (h3 : u1.topP = u2.topP) (h4 : u1.topK = u2.topK)
    (h5 : u1.messages.map (fun m =>
        (⟨geminiExportRole m.role, [⟨geminiMsgText m⟩]⟩ : GeminiOutContent)) =
      u2.messages.map (fun m =>
        (⟨geminiExportRole m.role, [⟨geminiMsgText m⟩]⟩ : GeminiOutContent))) :
    UnifiedToGemini u1 = UnifiedToGemini u2 := by
  unfold UnifiedToGemini
  rw [h1, h2, h3, h4, h5]

/-- Marshaling unified messages is injective across the normalization
equivalence: the two content forms marshal to distinct JSON, so equal
outputs force equal message lists. -/
theorem umsg_export_inj {l1 l2 : List UnifiedMessage} (h : UMsgListEquiv l1 l2)
    (he : l1.map unifiedMessageToJson = l2.map unifiedMessageToJson) : l1 = l2 := by
  induction h with
  | nil => rfl
  | consEq m h ih =>
      simp only [List.map_cons, List.cons.injEq] at he
      rw [ih he.2]
  | consNorm r t h ih =>
      exfalso
      simp only [List.map_cons, List.cons.injEq] at he
      have hhead := he.1
      simp [unifiedMessageToJson, textPartJson] at hhead

/-- Claude messages differing only by the designated content forms. -/
inductive CMsgListEquiv : List ClaudeMessage → List ClaudeMessage → Prop where
  | nil : CMsgListEquiv [] []
  | consEq (m : ClaudeMessage) {l1 l2 : List ClaudeMessage} :
      CMsgListEquiv l1 l2 → CMsgListEquiv (m :: l1) (m :: l2)
  | consNorm (r t : String) {l1 l2 : List ClaudeMessage} :
      CMsgListEquiv l1 l2 →
      CMsgListEquiv (⟨r, textPartJson t⟩ :: l1) (⟨r, Json.str t⟩ :: l2)

/-- The Claude importer maps messages verbatim, preserving the
equivalence. -/
theorem cmsg_to_umsg {ms1 ms2 : List ClaudeMessage} (h : CMsgListEquiv ms1 ms2) :
    UMsgListEquiv (ms1.map (fun m => (⟨m.role, m.content⟩ : UnifiedMessage)))
      (ms2.map (fun m => (⟨m.role, m.content⟩ : UnifiedMessage))) := by
  induction h with
  | nil => exact UMsgListEquiv.nil
  | consEq m h ih => exact UMsgListEquiv.consEq _ ih
  | consNorm r t h ih => exact UMsgListEquiv.consNorm r t ih

theorem umsg_prepend (pre : List UnifiedMessage) {l1 l2 : List UnifiedMessage}
    (h : UMsgListEquiv l1 l2) : UMsgListEquiv (pre ++ l1) (pre ++ l2) := by
  induction pre with
  | nil => exact h
  | cons m rest ih => exact UMsgListEquiv.consEq m ih

/-- C8 (amended): for every pair of same-dialect inbound bodies that agree
except for messages carrying `[{"type":"text","text":t}]` on one side and
the bare string `t` on the other — OpenAI-dialect JSON objects with
arbitrary further (equal) top-level fields, and Claude-dialect bodies
with arbitrary further (equal) fields — importing yields semantically
equivalent unified requests (equal in every field except the designated
message contents, with identical role/extracted-text views), and the
DEEPSEEK and GEMINI exporters produce the same output for both. The
OPENAI and CLAUDE exporters pass message content through verbatim, so for
every such pair with genuinely different message lists their outputs
DIFFER (third conjunct), refuting the original "every exporter". -/
theorem C8_normalized_content_equiv :
    (∀ (pre post : List (String × Json)) (msgs1 msgs2 : List Json),
      lookupField pre "messages" = none → JMsgListEquiv msgs1 msgs2 →
      ∀ u1 u2 : UnifiedRequest,
        OpenAIToUnified (Json.obj (pre ++ ("messages", Json.arr msgs1) :: post)) =
          Except.ok u1 →
        OpenAIToUnified (Json.obj (pre ++ ("messages", Json.arr msgs2) :: post)) =
          Except.ok u2 →
        u1 = { u2 with messages := u1.messages } ∧
        UMsgListEquiv u1.messages u2.messages ∧
        u1.messages.map (fun x => (x.role, textViewOf x.content)) =
          u2.messages.map (fun x => (x.role, textViewOf x.content)) ∧
        UnifiedToDeepSeek u1 = UnifiedToDeepSeek u2 ∧
        UnifiedToGemini u1 = UnifiedToGemini u2) ∧
    (∀ (b : ClaudeBody) (ms1 ms2 : List ClaudeMessage), CMsgListEquiv ms1 ms2 →
      ClaudeToUnified { b with messages := ms1 } =
        { ClaudeToUnified { b with messages := ms2 } with
            messages := (ClaudeToUnified { b with messages := ms1 }).messages } ∧
      UMsgListEquiv (ClaudeToUnified { b with messages := ms1 }).messages
        (ClaudeToUnified { b with messages := ms2 }).messages ∧
      UnifiedToDeepSeek (ClaudeToUnified { b with messages := ms1 }) =
        UnifiedToDeepSeek (ClaudeToUnified { b with messages := ms2 }) ∧
      UnifiedToGemini (ClaudeToUnified { b with messages := ms1 }) =
        UnifiedToGemini (ClaudeToUnified { b with messages := ms2 })) ∧
    (∀ (u : UnifiedRequest) (l1 l2 : List UnifiedMessage),
      UMsgListEquiv l1 l2 → l1 ≠ l2 →
      UnifiedToOpenAI { u with messages := l1 } ≠ UnifiedToOpenAI { u with messages := l2 } ∧
      UnifiedToClaude { u with messages := l1 } ≠ UnifiedToClaude { u with messages := l2 }) := by
  refine ⟨?_, ?_, ?_⟩
  · intro pre post msgs1 msgs2 hpre hequiv u1 u2 h1 h2
    have e1 : openAIImportRecord (pre ++ ("messages", Json.arr msgs1) :: post) = u1 := by
      have h := (openAIToUnified_obj (pre ++ ("messages", Json.arr msgs1) :: post)).symm.trans h1
      injection h
    have e2 : openAIImportRecord (pre ++ ("messages", Json.arr msgs2) :: post) = u2 := by
      have h := (openAIToUnified_obj (pre ++ ("messages", Json.arr msgs2) :: post)).symm.trans h2
      injection h
    subst e1
    subst e2
    have hlk : ∀ key, key ≠ "messages" →
        lookupField (pre ++ ("messages", Json.arr msgs1) :: post) key =
          lookupField (pre ++ ("messages", Json.arr msgs2) :: post) key :=
      fun key hk => lookupField_splice_other pre post _ _ key hk
    have hfields := openAIImportRecord_congr hlk
    have hm1 : (openAIImportRecord (pre ++ ("messages", Json.arr msgs1) :: post)).messages =
        msgs1.filterMap openAIMsgImport := by
      show openAIMessages (pre ++ ("messages", Json.arr msgs1) :: post) = _
      unfold openAIMessages
      rw [lookupField_splice_messages pre post msgs1 hpre]
    have hm2 : (openAIImportRecord (pre ++ ("messages", Json.arr msgs2) :: post)).messages =
        msgs2.filterMap openAIMsgImport := by
      show openAIMessages (pre ++ ("messages", Json.arr msgs2) :: post) = _
      unfold openAIMessages
      rw [lookupField_splice_messages pre post msgs2 hpre]
    have hmsgs : UMsgListEquiv
        (openAIImportRecord (pre ++ ("messages", Json.arr msgs1) :: post)).messages
        (openAIImportRecord (pre ++ ("messages", Json.arr msgs2) :: post)).messages := by
      rw [hm1, hm2]
      exact filterMap_import_equiv hequiv
    refine ⟨hfields, hmsgs, umsg_view_equiv hmsgs, ?_, ?_⟩
    · exact unifiedToDeepSeek_congr (by rw [hfields]) (by rw [hfields]) (by rw [hfields])
        (by rw [hfields]) (by rw [hfields]) (by rw [hfields]) (by rw [hfields])
        (by rw [hfields]) (umsg_deepseek_equiv hmsgs)
    · exact unifiedToGemini_congr (by rw [hfields]) (by rw [hfields]) (by rw [hfields])
        (by rw [hfields]) (umsg_gemini_equiv hmsgs)
  · intro b ms1 ms2 hcm
    have hmsgs : UMsgListEquiv (ClaudeToUnified { b with messages := ms1 }).messages
        (ClaudeToUnified { b with messages := ms2 }).messages := by
      show UMsgListEquiv
        ((if b.system ≠ "" then [(⟨"system", Json.str b.system⟩ : UnifiedMessage)] else []) ++
          ms1.map (fun m => (⟨m.role, m.content⟩ : UnifiedMessage)))
        ((if b.system ≠ "" then [(⟨"system", Json.str b.system⟩ : UnifiedMessage)] else []) ++
          ms2.map (fun m => (⟨m.role, m.content⟩ : UnifiedMessage)))
      exact umsg_prepend _ (cmsg_to_umsg hcm)
    refine ⟨rfl, hmsgs, ?_, ?_⟩
    · exact unifiedToDeepSeek_congr rfl rfl rfl rfl rfl rfl rfl rfl
        (umsg_deepseek_equiv hmsgs)
    · exact unifiedToGemini_congr rfl rfl rfl rfl (umsg_gemini_equiv hmsgs)
  · intro u l1 l2 hequiv hne
    have key : l1.map unifiedMessageToJson ≠ l2.map unifiedMessageToJson :=
      fun he => hne (umsg_export_inj hequiv he)
    constructor
    · intro h
      have hp : (some (Json.arr (l1.map unifiedMessageToJson)) : Option Json) =
          some (Json.arr (l2.map unifiedMessageToJson)) := congrArg msgsOf h
      injection hp with hp2
      injection hp2 with hp3
      exact key hp3
    · intro h
      have hp : (some (Json.arr (l1.map unifiedMessageToJson)) : Option Json) =
          some (Json.arr (l2.map unifiedMessageToJson)) := congrArg msgsOf h
      injection hp with hp2
      injection hp2 with hp3
      exact key hp3

/-- Concrete data exercising the amended C8 on bodies with extra fields. -/
def preC8 : List (String × Json) := [("model", Json.str "m"), ("temperature", Json.num 1)]

def postC8 : List (String × Json) := [("stream", Json.bool true)]

def uC8a : UnifiedRequest :=
  { model := "m", temperature := some 1, stream := true,
    messages := [⟨"user", textPartJson "hi"⟩] }

def uC8b : UnifiedRequest :=
  { model := "m", temperature := some 1, stream := true,
    messages := [⟨"user", Json.str "hi"⟩] }

def bC8 : ClaudeBody := { model := "m", maxTokens := 5, system := "sys" }

/-- C8 witness: the amended claim at concrete OpenAI bodies carrying extra
equal fields (temperature, stream), at a concrete Claude body, and at the
exporter-difference clause. -/
theorem C8_witness :
    (UMsgListEquiv uC8a.messages uC8b.messages ∧
      UnifiedToDeepSeek uC8a = UnifiedToDeepSeek uC8b ∧
      UnifiedToGemini uC8a = UnifiedToGemini uC8b) ∧
    UnifiedToDeepSeek (ClaudeToUnified { bC8 with
        messages := [⟨"user", textPartJson "hi"⟩] }) =
      UnifiedToDeepSeek (ClaudeToUnified { bC8 with
        messages := [⟨"user", Json.str "hi"⟩] }) ∧
    UnifiedToOpenAI { uC8a with messages := [⟨"user", textPartJson "hi"⟩] } ≠
      UnifiedToOpenAI { uC8a with messages := [⟨"user", Json.str "hi"⟩] } := by
  have h1 := C8_normalized_content_equiv.1 preC8 postC8
    [msgJson "user" (textPartJson "hi")] [msgJson "user" (Json.str "hi")] rfl
    (JMsgListEquiv.consNorm "user" "hi" JMsgListEquiv.nil) uC8a uC8b rfl rfl
  have h2 := C8_normalized_content_equiv.2.1 bC8
    [⟨"user", textPartJson "hi"⟩] [⟨"user", Json.str "hi"⟩]
    (CMsgListEquiv.consNorm "user" "hi" CMsgListEquiv.nil)
  have h3 := C8_normalized_content_equiv.2.2 uC8a
    [⟨"user", textPartJson "hi"⟩] [⟨"user", Json.str "hi"⟩]
    (UMsgListEquiv.consNorm "user" "hi" UMsgListEquiv.nil)
    (by intro hh; simp [textPartJson] at hh)
  exact ⟨⟨h1.2.1, h1.2.2.2.1, h1.2.2.2.2⟩, h2.2.2.1, h3.1⟩

end ElysiaApi
